import Mathlib

set_option linter.unusedVariables false

/-! Verification development for the queue-driven lead-enrichment pipeline
(the `ai-processor` service: the poll-based `index.js` processor and its
decrypting variant).  The JavaScript source is shallowly embedded: external
effects (the generation HTTP API, the document store, the AEAD primitive)
appear as explicit oracle parameters, store-level exceptions as an explicit
fault oracle, and each `await doc.ref.update(...)` as a pure transformation of
an explicit store value. -/

namespace Pipeline

/-- Truthiness of an optional JS string field: `undefined` / `null` and the
empty string are falsy. -/
def truthyS : Option String → Bool
  | none => false
  | some s => !(s == "")

/-- JS `a || d` for an optional string field against a string default
(mirrors `message.userId || "unknown_user"`). -/
def jsOrStr (a : Option String) (d : String) : String :=
  match a with
  | some s => if s == "" then d else s
  | none => d

/-- JS `a || b` on two optional string values (mirrors the monotonic-fill
assignment `currentLeadData.name = currentLeadData.name || extracted.name`). -/
def jsOrOpt (a b : Option String) : Option String :=
  if truthyS a then a else b

/-- JS `n || d` on a numeric field (0 is falsy). -/
def jsOrNat (n d : Nat) : Nat :=
  if n == 0 then d else n

/-- Outcome of one HTTP attempt against the generation service, as the client
code observes it: `fail` is a transport error or the timeout abort (the fetch
promise rejects); `resp ok body` is an HTTP response where `ok` is
`response.ok` and `body` is the candidate text after the extraction chain
`result.candidates?.[0]?.content?.parts?.[0]?.text` followed by `JSON.parse`
(`none` when the text is missing, empty, or does not parse as the expected
shape). -/
inductive HttpResult (α : Type) where
  | fail : HttpResult α
  | resp : Bool → Option α → HttpResult α
  deriving DecidableEq

/-- Bookkeeping for generation-service traffic: how many HTTP requests were
issued, the timeout handed to `fetchWithTimeout` for each of them, and the
backoff delays slept between attempts. -/
structure GenStats where
  requests : Nat
  timeouts : List Nat
  delays : List Nat
  deriving DecidableEq

/-- Stats of a call-site that was never reached. -/
def emptyGen : GenStats := ⟨0, [], []⟩

/-- The bounded request timeout: every generation request goes through
`fetchWithTimeout(url, options, 10000)`. -/
def timeout10s : Nat := 10000

/-- One execution of the callback handed to `retry` inside `callGeminiAPI`:
a rejected fetch or a non-ok status throws (and so is retried); an ok response
resolves to the parsed JSON text, or to `null` when the text is missing, empty
or unparsable — resolving to `null` counts as success and is NOT retried. -/
def geminiAttempt {α : Type} (r : HttpResult α) : Except Unit (Option α) :=
  match r with
  | .fail => .error ()
  | .resp ok body => if ok then .ok body else .error ()

/-- The `retry` wrapper specialised to the gemini attempt: on a throw it
sleeps `delayMs`, then recurses with one fewer retry and a doubled delay; with
the budget exhausted it resolves to `null`.  `oracle i` gives the outcome of
the i-th HTTP attempt; every attempt uses the 10s timeout.  (The retry budget
is split first so that each equation is structural; the attempt body is the
same in both branches, as in the source.) -/
def retryGemini {α : Type} (oracle : Nat → HttpResult α) (i : Nat) :
    Nat → Nat → Option α × GenStats
  | 0, _ =>
    match geminiAttempt (oracle i) with
    | .ok v => (v, ⟨1, [timeout10s], []⟩)
    | .error _ => (none, ⟨1, [timeout10s], []⟩)
  | r + 1, delayMs =>
    match geminiAttempt (oracle i) with
    | .ok v => (v, ⟨1, [timeout10s], []⟩)
    | .error _ =>
      let rest := retryGemini oracle (i + 1) r (delayMs * 2)
      (rest.1, ⟨rest.2.requests + 1, timeout10s :: rest.2.timeouts, delayMs :: rest.2.delays⟩)

/-- `callGeminiAPI`: an empty API key resolves to `null` with no network
traffic at all; otherwise the request is attempted under `retry(fn, 2, 500)`,
i.e. up to three attempts with backoff delays 500 ms then 1000 ms. -/
def callGeminiAPI {α : Type} (apiKey : String) (oracle : Nat → HttpResult α) :
    Option α × GenStats :=
  if apiKey == "" then (none, emptyGen)
  else retryGemini oracle 0 2 500

/-- Parsed shape of the Classify call-site response. -/
structure Classification where
  isLead : Bool
  intent : String
  deriving DecidableEq

/-- Parsed shape of the Qualify call-site response. -/
structure Qualification where
  isQualified : Bool
  priority : String
  deriving DecidableEq

/-- Parsed shape of the Extract call-site response. -/
structure Extraction where
  name : Option String
  email : Option String
  deriving DecidableEq

/-- The intent string of the Classify fallback object. -/
def unknownIntent : String := "Unknown"

/-- The priority string of the Qualify fallback object. -/
def lowPriority : String := "Low"

/-- The default priority substituted when an existing qualified-lead record
has no truthy `priority` field. -/
def highPriority : String := "High"

/-- The fixed courtesy string returned when reply generation fails. -/
def courtesyReply : String := "Thank you. We\x27ll get back shortly."

/-- The empty string (a missing API key; empty reply text). -/
def emptyStr : String := ""

/-- The Classify call-site: `await callGeminiAPI(payload) || fallback`. -/
def classifyMessage (messageBody apiKey : String)
    (oracle : Nat → HttpResult Classification) : Classification × GenStats :=
  let r := callGeminiAPI apiKey oracle
  (r.1.getD ⟨false, unknownIntent⟩, r.2)

/-- The Qualify call-site: `await callGeminiAPI(payload) || fallback`. -/
def qualifyLead (messageBody : String) (totalMessages : Nat) (intent apiKey : String)
    (oracle : Nat → HttpResult Qualification) : Qualification × GenStats :=
  let r := callGeminiAPI apiKey oracle
  (r.1.getD ⟨false, lowPriority⟩, r.2)

/-- The Extract call-site: `await callGeminiAPI(payload) || fallback`. -/
def extractData (messageBody apiKey : String)
    (oracle : Nat → HttpResult Extraction) : Extraction × GenStats :=
  let r := callGeminiAPI apiKey oracle
  (r.1.getD ⟨none, none⟩, r.2)

/-- The Reply call-site: a single `fetchWithTimeout` with a 10s timeout, no
retry wrapper, no API-key check, and no `response.ok` check; any thrown error
(transport failure, timeout abort, `response.json()` failure) and any missing
or empty reply text resolve to the fixed courtesy string. -/
def generateReply (messageBody intent : String)
    (isReturningClient isQualified missingName missingEmail : Bool)
    (oracle1 : HttpResult String) : String × GenStats :=
  match oracle1 with
  | .fail => (courtesyReply, ⟨1, [timeout10s], []⟩)
  | .resp _ body =>
    match body with
    | some t => (if t == "" then courtesyReply else t, ⟨1, [timeout10s], []⟩)
    | none => (courtesyReply, ⟨1, [timeout10s], []⟩)

/-- Abstract events recorded along one processing attempt, in order.
`claimSet` is the `processing := true` claim update; `genReq` is one HTTP
request to the generation service; `decryptEv` is the decryption call;
`storeWrite` is any other store write. -/
inductive Ev where
  | claimSet : Ev
  | genReq : Ev
  | decryptEv : Ev
  | storeWrite : Ev
  deriving DecidableEq

/-- Generic partial update of the i-th element of a list (the document behind
a Firestore `docRef.update`); out-of-range indices leave the list unchanged. -/
def listUpdateAt {α : Type} : List α → Nat → (α → α) → List α
  | [], _, _ => []
  | x :: rest, 0, f => f x :: rest
  | x :: rest, i + 1, f => x :: listUpdateAt rest i f

end Pipeline

namespace IndexJs

open Pipeline

/-- One `raw_messages` document, restricted to the fields the poll-based
processor reads or writes.  Optional fields model JS `undefined`. -/
structure RawMsg where
  userId : Option String
  phoneNumber : Option String
  body : String
  processing : Bool
  processed : Bool
  isLead : Option Bool
  isQualified : Option Bool
  priority : Option String
  autoReplyText : Option String
  messageCount : Option Nat
  deriving DecidableEq

/-- One `leads` document. -/
structure LeadDoc where
  userId : String
  phoneNumber : String
  intent : String
  firstMessageBody : String
  messageCount : Nat
  timestamp : Nat
  lastActive : Option Nat
  deriving DecidableEq

/-- One `qualified_leads` document. -/
structure QLDoc where
  userId : String
  phoneNumber : String
  rawMessageId : String
  intent : String
  priority : Option String
  messageCount : Nat
  autoReplyText : String
  name : Option String
  email : Option String
  timestamp : Nat
  lastActive : Option Nat
  deriving DecidableEq

/-- The document store: the three collections the processor touches.  Raw
messages are keyed by their store-assigned id. -/
structure Store where
  raw : List (String × RawMsg)
  leads : List LeadDoc
  qleads : List QLDoc
  deriving DecidableEq

/-- Point lookup of a raw message by id. -/
def findRaw (st : Store) (docId : String) : Option RawMsg :=
  (st.raw.find? (fun p => p.1 == docId)).map (fun p => p.2)

/-- `doc.ref.update({...})` on the raw message `docId`: an atomic partial
update of that single document. -/
def rawUpdate (st : Store) (docId : String) (f : RawMsg → RawMsg) : Store :=
  { st with raw := st.raw.map (fun p => if p.1 == docId then (p.1, f p.2) else p) }

/-- The query `leads.where('userId','==',uid).orderBy('timestamp','desc')
.limit(1)`: the position and value of the matching document with the largest
timestamp (first such position on ties), or `none` when the sender has no
lead. -/
def findLatestLead : List LeadDoc → String → Option (Nat × LeadDoc)
  | [], _ => none
  | l :: rest, uid =>
    let tailBest := (findLatestLead rest uid).map (fun p => (p.1 + 1, p.2))
    if l.userId == uid then
      match tailBest with
      | none => some (0, l)
      | some (j, m) => if m.timestamp > l.timestamp then some (j, m) else some (0, l)
    else tailBest

/-- The query `qualified_leads.where('userId','==',uid).limit(1)`: position
and value of the first matching document. -/
def findQL : List QLDoc → String → Option (Nat × QLDoc)
  | [], _ => none
  | q :: rest, uid =>
    if q.userId == uid then some (0, q)
    else (findQL rest uid).map (fun p => (p.1 + 1, p.2))

/-- Number of `leads` documents for a sender. -/
def leadCount (st : Store) (uid : String) : Nat :=
  (st.leads.filter (fun l => l.userId == uid)).length

/-- Number of `qualified_leads` documents for a sender. -/
def qlCount (st : Store) (uid : String) : Nat :=
  (st.qleads.filter (fun q => q.userId == uid)).length

/-- The dispatch predicate of `pollMessages`: only documents with
`processed == false` and `processing == false` are handed to the processor. -/
def pollEligible (m : RawMsg) : Bool :=
  !m.processed && !m.processing

/-- Whether a `qualified_leads` document exists for a sender. -/
def qlExists (st : Store) (uid : String) : Bool :=
  (findQL st.qleads uid).isSome

/-- Default string for a missing `userId`. -/
def unknownUser : String := "unknown_user"

/-- Default string for a missing `phoneNumber`. -/
def unknownPhone : String := "unknown_phone"

/-- The sender key used by the processor for a raw message. -/
def uidOf (m : RawMsg) : String :=
  Pipeline.jsOrStr m.userId unknownUser

/-- How one processing attempt ended.  `aborted`: the snapshot already showed
`processing == true` and the attempt returned before any effect.
`completed`: the attempt reached its final raw-message update.  `caught`: an
exception was thrown inside the `try` block, caught at the processor boundary,
and the claim released.  `escapedClaim`: the claim update itself threw (it sits
before the `try`, so the rejection leaves the function).  `escapedRelease`:
the release update inside the `catch` threw. -/
inductive Outcome where
  | aborted : Outcome
  | completed : Outcome
  | caught : Outcome
  | escapedClaim : Outcome
  | escapedRelease : Outcome
  deriving DecidableEq

/-- Per-attempt statistics: the stats of each generation call-site (zero when
the site was never reached), whether the Qualify and Extract call-sites were
invoked at all, and the ordered event trace. -/
structure PStats where
  classifyS : GenStats
  qualifyS : GenStats
  extractS : GenStats
  replyS : GenStats
  qualifyInvoked : Bool
  extractInvoked : Bool
  trace : List Ev
  deriving DecidableEq

/-- Stats of an attempt that performed nothing. -/
def noStats : PStats := ⟨emptyGen, emptyGen, emptyGen, emptyGen, false, false, []⟩

/-- Result of one processing attempt. -/
structure RunResult where
  outcome : Outcome
  store : Store
  stats : PStats
  deriving DecidableEq

/-- The `catch` block of `processMessage`: release the claim with
`doc.ref.update({ processing: false })`.  `releaseFault` injects a store
failure of that very update, in which case the rejection escapes. -/
def catchRelease (docId : String) (releaseFault : Bool) (st : Store) (ps : PStats) :
    RunResult :=
  if releaseFault then ⟨.escapedRelease, st, ps⟩
  else ⟨.caught, rawUpdate st docId (fun d => { d with processing := false }),
        { ps with trace := ps.trace ++ [Ev.storeWrite] }⟩

/-- Second half of the lead branch (source: save qualified lead, save/update
general lead, mark the raw message processed).  Factored out so the qualified
and unqualified paths share it.  Store-fault slots: 3 = qualified-lead write,
4 = general-lead write, 5 = final raw-message update. -/
def finishLead (docId userId phoneNumber : String) (message : RawMsg)
    (intent : String) (existingLead : Option (Nat × LeadDoc))
    (qualifiedLeadDocRef : Option Nat) (totalMessages : Nat) (isQualified : Bool)
    (leadPriority autoReply : String) (curName curEmail : Option String)
    (faults : Nat → Bool) (releaseFault : Bool) (now : Nat)
    (st : Store) (ps : PStats) : RunResult :=
  let isReturningClient := existingLead.isSome
  -- save qualified lead
  if isQualified && faults 3 then catchRelease docId releaseFault st ps else
  let stQ :=
    if isQualified then
      match qualifiedLeadDocRef with
      | none =>
        { st with qleads := st.qleads ++
            [⟨userId, phoneNumber, docId, intent, some leadPriority, totalMessages,
              autoReply, curName, curEmail, now, none⟩] }
      | some qi =>
        { st with qleads := listUpdateAt st.qleads qi (fun q =>
            { q with
              name := curName,
              email := curEmail,
              messageCount := totalMessages,
              lastActive := some now }) }
    else st
  let psQ := if isQualified then { ps with trace := ps.trace ++ [Ev.storeWrite] } else ps
  -- save/update general lead
  if faults 4 then catchRelease docId releaseFault stQ psQ else
  let stL :=
    if !isReturningClient then
      { stQ with leads := stQ.leads ++
          [⟨userId, phoneNumber, intent, message.body, totalMessages, now, none⟩] }
    else
      match existingLead with
      | some (li, _) =>
        { stQ with leads := listUpdateAt stQ.leads li (fun l =>
            { l with
              intent := intent,
              messageCount := totalMessages,
              lastActive := some now }) }
      | none => stQ
  let psL := { psQ with trace := psQ.trace ++ [Ev.storeWrite] }
  -- mark raw message processed
  if faults 5 then catchRelease docId releaseFault stL psL else
  ⟨.completed,
   rawUpdate stL docId (fun d =>
     { d with
       processed := true,
       isLead := some true,
       isQualified := some isQualified,
       priority := some leadPriority,
       autoReplyText := some autoReply,
       messageCount := some totalMessages,
       processing := false }),
   { psL with trace := psL.trace ++ [Ev.storeWrite] }⟩

/-- The poll-based `processMessage`, one attempt on the raw message `docId`
whose dispatch-time snapshot is `message`.  Oracles: `classifyO`, `qualifyO`,
`extractO` give per-attempt HTTP outcomes for the three structured call-sites,
`replyO` the single reply request.  `faults i` injects a thrown store error at
fault slot i (0 = claim update, 1 = leads query, 2 = qualified-leads query,
3 = qualified-lead write, 4 = general-lead write, 5 = final raw update);
`releaseFault` makes the release update in the `catch` throw.  `now` stands
for `Timestamp.now()`. -/
def processMessage (docId : String) (message : RawMsg) (apiKey : String)
    (classifyO : Nat → HttpResult Classification)
    (qualifyO : Nat → HttpResult Qualification)
    (extractO : Nat → HttpResult Extraction)
    (replyO : HttpResult String)
    (faults : Nat → Bool) (releaseFault : Bool) (now : Nat)
    (st0 : Store) : RunResult :=
  let userId := jsOrStr message.userId unknownUser
  let phoneNumber := jsOrStr message.phoneNumber unknownPhone
  -- if (message.processing) return;
  if message.processing then ⟨.aborted, st0, noStats⟩ else
  -- await doc.ref.update({ processing: true });
  if faults 0 then ⟨.escapedClaim, st0, noStats⟩ else
  let st1 := rawUpdate st0 docId (fun d => { d with processing := true })
  -- try { const classification = await classifyMessage(message.body); ...
  let cRes := classifyMessage message.body apiKey classifyO
  let classification := cRes.1
  let ps1 : PStats :=
    { noStats with
      classifyS := (cRes.2),
      trace := Ev.claimSet :: List.replicate cRes.2.requests Ev.genReq }
  if classification.isLead then
    -- leads query (fault slot 1)
    if faults 1 then catchRelease docId releaseFault st1 ps1 else
    let existingLead := findLatestLead st1.leads userId
    let totalMessages :=
      match existingLead with
      | some (_, l) => jsOrNat l.messageCount 1 + 1
      | none => 1
    -- qualified-leads query (fault slot 2)
    if faults 2 then catchRelease docId releaseFault st1 ps1 else
    let existingQualified := findQL st1.qleads userId
    let qstep :
        Option Nat × Option String × Option String × Bool × String × GenStats × Bool :=
      match existingQualified with
      | some (qi, q) =>
        (some qi, q.name, q.email, true, jsOrStr q.priority highPriority, emptyGen, false)
      | none =>
        let qRes := qualifyLead message.body totalMessages classification.intent apiKey qualifyO
        (none, none, none, qRes.1.isQualified, qRes.1.priority, qRes.2, true)
    let qualifiedLeadDocRef := qstep.1
    let curName0 := qstep.2.1
    let curEmail0 := qstep.2.2.1
    let isQualified := qstep.2.2.2.1
    let leadPriority := qstep.2.2.2.2.1
    let qs := qstep.2.2.2.2.2.1
    let qualifyInvoked := qstep.2.2.2.2.2.2
    -- extract missing data
    let estep : Option String × Option String × GenStats × Bool :=
      if isQualified && (!(truthyS curName0) || !(truthyS curEmail0)) then
        let eRes := extractData message.body apiKey extractO
        (jsOrOpt curName0 eRes.1.name, jsOrOpt curEmail0 eRes.1.email, eRes.2, true)
      else (curName0, curEmail0, emptyGen, false)
    let curName := estep.1
    let curEmail := estep.2.1
    let es := estep.2.2.1
    let extractInvoked := estep.2.2.2
    let missingName := !(truthyS curName)
    let missingEmail := !(truthyS curEmail)
    let rRes := generateReply message.body classification.intent existingLead.isSome
      isQualified missingName missingEmail replyO
    let autoReply := rRes.1
    let ps2 : PStats :=
      { ps1 with
        qualifyS := qs,
        extractS := es,
        replyS := (rRes.2),
        qualifyInvoked := qualifyInvoked,
        extractInvoked := extractInvoked,
        trace := ps1.trace ++ List.replicate qs.requests Ev.genReq ++
          List.replicate es.requests Ev.genReq ++
          List.replicate rRes.2.requests Ev.genReq }
    finishLead docId userId phoneNumber message classification.intent existingLead
      qualifiedLeadDocRef totalMessages isQualified leadPriority autoReply
      curName curEmail faults releaseFault now st1 ps2
  else
    -- not a lead: await doc.ref.update({ processed: true, processing: false });
    if faults 5 then catchRelease docId releaseFault st1 ps1 else
    ⟨.completed,
     rawUpdate st1 docId (fun d => { d with processed := true, processing := false }),
     { ps1 with trace := ps1.trace ++ [Ev.storeWrite] }⟩

end IndexJs

namespace Part0

open Pipeline

/-- One `raw_messages` document as the decrypting variant sees it: the body is
the encrypted triple, `msgFrom` embeds the source field `from` (a Lean
keyword), and `priority` is numeric in this variant. -/
structure RawMsgE where
  msgFrom : Option String
  encryptedBody : Option String
  iv : Option String
  authTag : Option String
  processing : Bool
  processed : Bool
  isLead : Option Bool
  isQualified : Option Bool
  priority : Option Nat
  autoReplyText : Option String
  messageCount : Option Nat
  replyPending : Option Bool
  deriving DecidableEq

/-- One `leads` document of the decrypting variant (keyed by `leadKey`). -/
structure LeadE where
  leadKey : Option String
  intent : String
  firstMessageBody : String
  messageCount : Nat
  timestamp : Nat
  lastActive : Option Nat
  deriving DecidableEq

/-- The store as touched by the decrypting variant.  The `qualified_leads`
collection is present in the database but this variant never writes it. -/
structure StoreE where
  raw : List (String × RawMsgE)
  leads : List LeadE
  qleads : List IndexJs.QLDoc
  deriving DecidableEq

/-- Point lookup of a raw message by id. -/
def findRawE (st : StoreE) (docId : String) : Option RawMsgE :=
  (st.raw.find? (fun p => p.1 == docId)).map (fun p => p.2)

/-- Atomic partial update of the raw message `docId`. -/
def rawUpdateE (st : StoreE) (docId : String) (f : RawMsgE → RawMsgE) : StoreE :=
  { st with raw := st.raw.map (fun p => if p.1 == docId then (p.1, f p.2) else p) }

/-- The query `leads.where('leadKey','==',leadKey).get()` with the `.empty` /
`.docs[0]` use pattern: position and value of the first matching document. -/
def findLeadE : List LeadE → Option String → Option (Nat × LeadE)
  | [], _ => none
  | l :: rest, k =>
    if l.leadKey == k then some (0, l)
    else (findLeadE rest k).map (fun p => (p.1 + 1, p.2))

/-- ASCII lower-casing of one character, as `toLowerCase` acts on the ASCII
strings this code compares. -/
def lowerChar (c : Char) : Char :=
  if 65 ≤ c.toNat && c.toNat ≤ 90 then Char.ofNat (c.toNat + 32) else c

/-- Whether `pat` is an initial segment of the character list. -/
def startsWithL : List Char → List Char → Bool
  | [], _ => true
  | _ :: _, [] => false
  | p :: ps, c :: cs => p == c && startsWithL ps cs

/-- Whether `pat` occurs contiguously in the character list. -/
def hasSubL (pat : List Char) : List Char → Bool
  | [] => startsWithL pat []
  | c :: rest => startsWithL pat (c :: rest) || hasSubL pat rest

/-- JS `s.toLowerCase().includes(pat)`. -/
def containsSubstr (s pat : String) : Bool :=
  hasSubL pat.data (s.data.map lowerChar)

/-- The dispatch predicate of this variant's `pollMessages`. -/
def pollEligibleE (m : RawMsgE) : Bool :=
  !m.processed && !m.processing

/-- The decryption adapter `decrypt(encryptedBody, iv, authTag)`.  The AEAD
primitive itself (`crypto.createDecipheriv('aes-256-gcm', key, iv)` with
`setAuthTag` / `update` / `final`) is an external primitive, passed as the
oracle `dec`; `dec` returns `none` exactly when that primitive throws
(auth-tag mismatch, malformed hex, bad key material).  The adapter returns
`null` up front when any argument is falsy (missing or empty field) and
`null` on a primitive failure; it never throws past its caller. -/
def decrypt (encryptedBody iv authTag : Option String)
    (dec : String → String → String → Option String) : Option String :=
  match encryptedBody, iv, authTag with
  | some c, some i, some t =>
    if c == "" || i == "" || t == "" then none else dec c i t
  | _, _, _ => none

/-- Result triple of the placeholder `generateAIResponse`. -/
structure AIResult where
  text : String
  classification : Classification
  extraction : Option (String × String)
  deriving DecidableEq

def aiUnavailableText : String := "The AI is currently unavailable."

def errIntent : String := "error"

def quoteWord : String := "quote"

def quoteIntent : String := "quote_request"

def generalIntent : String := "general_inquiry"

def quoteText : String :=
  "Thank you for your inquiry about a quote! I need to know your company name and project scope to provide an accurate estimate."

def genericText : String := "Thank you for your message. I\x27m processing your request."

def unknownCompany : String := "Unknown"

def quoteScope : String := "Quote Request"

/-- The deterministic `generateAIResponse` stub of the decrypting variant:
with no API key it reports the AI unavailable and a non-lead classification;
otherwise it keys off whether the prompt mentions a quote. -/
def generateAIResponse (apiKey prompt : String) : AIResult :=
  if apiKey == "" then ⟨aiUnavailableText, ⟨false, errIntent⟩, none⟩
  else if containsSubstr prompt quoteWord then
    ⟨quoteText, ⟨true, quoteIntent⟩, some (unknownCompany, quoteScope)⟩
  else ⟨genericText, ⟨true, generalIntent⟩, none⟩

/-- The terminal auto-reply persisted on a decryption failure. -/
def decryptErrText : String := "Error processing your message due to a decryption issue."

/-- How one attempt of the decrypting variant ended.  `escaped` covers every
rejection that leaves `processMessage` uncaught: a thrown claim update, a
thrown store call between the claim and the `try` block, and a thrown release
update inside the `catch`. -/
inductive OutcomeE where
  | aborted : OutcomeE
  | escaped : OutcomeE
  | decryptDone : OutcomeE
  | completed : OutcomeE
  | caught : OutcomeE
  deriving DecidableEq

/-- Result of one attempt of the decrypting variant. -/
structure RunResultE where
  outcome : OutcomeE
  store : StoreE
  trace : List Ev
  deriving DecidableEq

/-- The `catch` block: release the claim; a thrown release update escapes. -/
def catchReleaseE (docId : String) (releaseFault : Bool) (st : StoreE)
    (tr : List Ev) : RunResultE :=
  if releaseFault then ⟨.escaped, st, tr⟩
  else ⟨.caught, rawUpdateE st docId (fun d => { d with processing := false }),
        tr ++ [Ev.storeWrite]⟩

/-- The decrypting variant's `processMessage`.  Fault slots: 0 = claim update,
1 = decryption-failure update (before the `try`), 2 = the thread
message-count query over `raw_messages` (after the claim, before the `try`),
3 = leads query, 4 = raw-message update, 5 = lead add/update. -/
def processMessage (docId : String) (message : RawMsgE) (apiKey : String)
    (dec : String → String → String → Option String)
    (faults : Nat → Bool) (releaseFault : Bool) (now : Nat)
    (st0 : StoreE) : RunResultE :=
  -- if (message.processing) return;
  if message.processing then ⟨.aborted, st0, []⟩ else
  -- await doc.ref.update({ processing: true });
  if faults 0 then ⟨.escaped, st0, []⟩ else
  let st1 := rawUpdateE st0 docId (fun d => { d with processing := true })
  let decryptedBody := decrypt message.encryptedBody message.iv message.authTag dec
  let tr1 : List Ev := [Ev.claimSet, Ev.decryptEv]
  if !(truthyS decryptedBody) then
    -- decryption failed: mark processed with the error auto-reply and exit;
    -- this update sits before the try block, so a thrown write escapes
    if faults 1 then ⟨.escaped, st1, tr1⟩ else
    ⟨.decryptDone,
     rawUpdateE st1 docId (fun d =>
       { d with
         processed := true,
         processing := false,
         autoReplyText := some decryptErrText }),
     tr1 ++ [Ev.storeWrite]⟩
  else
  let b := decryptedBody.getD emptyStr
  let leadKey := message.msgFrom
  -- total-message count query: after the claim, before the try block, so a
  -- thrown store error here escapes without releasing the claim
  if faults 2 then ⟨.escaped, st1, tr1⟩ else
  let totalMessages := (st1.raw.filter (fun p => p.2.msgFrom == leadKey)).length
  -- try {
  let aiResult := generateAIResponse apiKey b
  let classification := aiResult.classification
  let isQualified := classification.intent == quoteIntent
  let leadPriority : Nat := if isQualified then 1 else 2
  -- leads query (fault slot 3)
  if faults 3 then catchReleaseE docId releaseFault st1 tr1 else
  let existingLead := findLeadE st1.leads leadKey
  if classification.isLead then
    -- raw-message update first in this variant (fault slot 4)
    if faults 4 then catchReleaseE docId releaseFault st1 tr1 else
    let st2 := rawUpdateE st1 docId (fun d =>
      { d with
        processed := true,
        isLead := some classification.isLead,
        isQualified := some isQualified,
        priority := some leadPriority,
        autoReplyText := some aiResult.text,
        messageCount := some totalMessages,
        replyPending := some true,
        processing := false })
    -- lead add/update (fault slot 5)
    if faults 5 then catchReleaseE docId releaseFault st2 (tr1 ++ [Ev.storeWrite]) else
    let st3 :=
      match existingLead with
      | none =>
        { st2 with leads := st2.leads ++
            [⟨leadKey, classification.intent, b, totalMessages, now, none⟩] }
      | some (li, _) =>
        { st2 with leads := listUpdateAt st2.leads li (fun l =>
            { l with
              intent := classification.intent,
              messageCount := totalMessages,
              lastActive := some now }) }
    ⟨.completed, st3, tr1 ++ [Ev.storeWrite, Ev.storeWrite]⟩
  else
    -- not a lead (fault slot 4)
    if faults 4 then catchReleaseE docId releaseFault st1 tr1 else
    ⟨.completed,
     rawUpdateE st1 docId (fun d => { d with processed := true, processing := false }),
     tr1 ++ [Ev.storeWrite]⟩

end Part0

namespace Claiming

/-- The two concurrent attempts racing to claim one raw message. -/
inductive Tid where
  | A : Tid
  | B : Tid
  deriving DecidableEq, Fintype

/-- Where one attempt stands: before its snapshot read, after it, past Claim
(it issued the claim update after seeing `false`), or aborted (it saw `true`
and returned). -/
inductive Phase where
  | start : Phase
  | readDone : Phase
  | proceeded : Phase
  | aborted : Phase
  deriving DecidableEq, Fintype

/-- One attempt: its phase and the `processing` value its snapshot holds. -/
structure Att where
  phase : Phase
  saw : Bool
  deriving DecidableEq, Fintype

/-- Shared state: the persisted `processing` flag plus the two attempts. -/
structure CSt where
  flag : Bool
  attA : Att
  attB : Att
  deriving DecidableEq, Fintype

def getAtt : Tid → CSt → Att
  | .A, s => s.attA
  | .B, s => s.attB

def setAtt : Tid → CSt → Att → CSt
  | .A, s, a => { s with attA := a }
  | .B, s, a => { s with attB := a }

/-- One scheduler step of attempt `t`: the two-step embedding of
`if (message.processing) return;` followed by
`await doc.ref.update({ processing: true })`.  The first step takes the
snapshot read of the flag; the second — separately — either aborts (saw
`true`) or performs the unconditional, per-document-atomic claim write and
proceeds.  The gap between the two steps is exactly the check-then-act window
of the source. -/
def step (t : Tid) (s : CSt) : CSt :=
  let a := getAtt t s
  match a.phase with
  | .start => setAtt t s ⟨.readDone, s.flag⟩
  | .readDone =>
    if a.saw then setAtt t s ⟨.aborted, a.saw⟩
    else { setAtt t s ⟨.proceeded, a.saw⟩ with flag := true }
  | _ => s

/-- Run a schedule (an arbitrary interleaving of the two attempts). -/
def run (sched : List Tid) (s : CSt) : CSt :=
  sched.foldl (fun s t => step t s) s

/-- Both attempts at their start, the message unclaimed. -/
def init : CSt := ⟨false, ⟨.start, false⟩, ⟨.start, false⟩⟩

end Claiming

/-! Concrete fixtures used to instantiate the theorems. -/

namespace Pipeline

/-- Sample message body. -/
def wBody : String := "hello"

/-- Sample non-empty API key. -/
def wKey : String := "k"

/-- Sample intent returned by a successful classification. -/
def wIntent : String := "study_visa"

/-- Sample persistently failing transport for the Classify call-site. -/
def wFailC : Nat → HttpResult Classification := fun _ => HttpResult.fail

/-- Sample persistently failing transport for the Qualify call-site. -/
def wFailQ : Nat → HttpResult Qualification := fun _ => HttpResult.fail

/-- Sample persistently failing transport for the Extract call-site. -/
def wFailE : Nat → HttpResult Extraction := fun _ => HttpResult.fail

/-- Sample successful lead classification response. -/
def wLeadC : Nat → HttpResult Classification :=
  fun _ => HttpResult.resp true (some ⟨true, wIntent⟩)

/-- Sample successful qualification response. -/
def wOkQ : Nat → HttpResult Qualification :=
  fun _ => HttpResult.resp true (some ⟨true, highPriority⟩)

/-- Sample extracted email. -/
def wEmail : String := "a@b.com"

/-- Sample successful extraction response: email only. -/
def wOkE : Nat → HttpResult Extraction :=
  fun _ => HttpResult.resp true (some ⟨none, some wEmail⟩)

/-- Sample reply text. -/
def wReply : String := "reply text"

/-- Sample successful reply response. -/
def wOkR : HttpResult String := HttpResult.resp true (some wReply)

/-- No injected store faults. -/
def noFaults : Nat → Bool := fun _ => false

end Pipeline

namespace IndexJs

/-- Sample raw-message id. -/
def wId : String := "d1"

/-- Sample sender key. -/
def wUid : String := "u1"

/-- Sample phone number. -/
def wPhone : String := "p1"

/-- Sample unprocessed raw message. -/
def wMsg : RawMsg :=
  ⟨some wUid, some wPhone, Pipeline.wBody, false, false, none, none, none, none, none⟩

/-- Sample raw message already claimed by another attempt. -/
def wMsgBusy : RawMsg :=
  ⟨some wUid, some wPhone, Pipeline.wBody, true, false, none, none, none, none, none⟩

/-- Sample raw message persisted with `isQualified = true`. -/
def wMsgQualified : RawMsg :=
  ⟨some wUid, some wPhone, Pipeline.wBody, false, false, some true, some true,
   some Pipeline.highPriority, none, some 1⟩

/-- Sample store holding only the unprocessed message. -/
def wStore : Store := ⟨[(wId, wMsg)], [], []⟩

/-- Sample prior raw-message id. -/
def wPrevId : String := "d0"

/-- Sample known client name. -/
def wName : String := "Bob"

/-- Sample existing qualified-lead document for the sample sender. -/
def wQL : QLDoc :=
  ⟨wUid, wPhone, wPrevId, Pipeline.wIntent, some Pipeline.highPriority, 1,
   Pipeline.wReply, some wName, none, 0, none⟩

/-- Sample existing general-lead document for the sample sender. -/
def wLead : LeadDoc := ⟨wUid, wPhone, Pipeline.wIntent, Pipeline.wBody, 1, 0, none⟩

/-- Sample store where the sample sender already has a Lead and QualifiedLead. -/
def wStoreQL : Store := ⟨[(wId, wMsg)], [wLead], [wQL]⟩

end IndexJs

namespace Part0

/-- Sample raw-message id for the decrypting variant. -/
def eId : String := "e1"

/-- Sample sender of the encrypted message. -/
def eFrom : String := "s1"

/-- Sample ciphertext hex. -/
def eCipher : String := "ab"

/-- Sample IV hex. -/
def eIv : String := "cd"

/-- Sample auth-tag hex. -/
def eTag : String := "ef"

/-- Sample encrypted raw message. -/
def eMsg : RawMsgE :=
  ⟨some eFrom, some eCipher, some eIv, some eTag, false, false, none, none, none,
   none, none, none⟩

/-- Sample store for the decrypting variant. -/
def eStore : StoreE := ⟨[(eId, eMsg)], [], []⟩

/-- AEAD oracle that always fails (wrong auth tag). -/
def decFail : String → String → String → Option String := fun _ _ _ => none

/-- Sample recovered plaintext. -/
def ePlain : String := "quote please"

/-- AEAD oracle that always succeeds with a fixed plaintext. -/
def decOk : String → String → String → Option String := fun _ _ _ => some ePlain

end Part0

/-! Helper lemmas about the store model. -/

namespace Pipeline

theorem filter_listUpdateAt {α : Type} (p : α → Bool) (f : α → α)
    (hf : ∀ x, p (f x) = p x) :
    ∀ (l : List α) (i : Nat),
      ((listUpdateAt l i f).filter p).length = (l.filter p).length
  | [], _ => rfl
  | x :: rest, 0 => by
    simp only [listUpdateAt, List.filter_cons, hf x]
    split <;> simp
  | x :: rest, i + 1 => by
    simp only [listUpdateAt, List.filter_cons]
    split <;> simp [filter_listUpdateAt p f hf rest i]

theorem length_listUpdateAt {α : Type} (f : α → α) :
    ∀ (l : List α) (i : Nat), (listUpdateAt l i f).length = l.length
  | [], _ => rfl
  | _ :: rest, 0 => rfl
  | _ :: rest, i + 1 => by
    simp [listUpdateAt, length_listUpdateAt f rest i]

end Pipeline

namespace IndexJs

theorem findRaw_rawUpdate (st : Store) (docId : String) (f : RawMsg → RawMsg) :
    findRaw (rawUpdate st docId f) docId = (findRaw st docId).map f := by
  obtain ⟨raw, leads, qleads⟩ := st
  simp only [findRaw, rawUpdate]
  induction raw with
  | nil => rfl
  | cons x rest ih =>
    by_cases h : x.1 == docId
    · simp [List.find?, h]
    · simpa [List.find?, h] using ih

theorem rawUpdate_leads (st : Store) (docId : String) (f : RawMsg → RawMsg) :
    (rawUpdate st docId f).leads = st.leads := rfl

theorem rawUpdate_qleads (st : Store) (docId : String) (f : RawMsg → RawMsg) :
    (rawUpdate st docId f).qleads = st.qleads := rfl

theorem findQL_sound :
    ∀ (l : List QLDoc) (u : String) (i : Nat) (q : QLDoc),
      findQL l u = some (i, q) → l.get? i = some q ∧ q.userId = u
  | [], _, _, _, h => by simp [findQL] at h
  | x :: rest, u, i, q, h => by
    by_cases hx : x.userId == u
    · simp only [findQL, hx, if_pos] at h
      simp only [Option.some.injEq, Prod.mk.injEq] at h
      obtain ⟨hi, hq⟩ := h
      subst hi; subst hq
      exact ⟨rfl, by simpa using hx⟩
    · simp only [findQL, hx, if_neg, Bool.false_eq_true] at h
      cases hr : findQL rest u with
      | none => rw [hr] at h; simp at h
      | some p =>
        rw [hr] at h
        simp only [Option.map_some', Option.some.injEq, Prod.mk.injEq] at h
        obtain ⟨hi, hq⟩ := h
        obtain ⟨h1, h2⟩ := findQL_sound rest u p.1 p.2 (by rw [hr])
        exact ⟨by simpa using h1, h2⟩

theorem findQL_none_filter :
    ∀ (l : List QLDoc) (u : String), findQL l u = none →
      l.filter (fun x => x.userId == u) = []
  | [], _, _ => rfl
  | x :: rest, u, h => by
    by_cases hx : x.userId == u
    · simp [findQL, hx] at h
    · simp only [findQL, hx, Bool.false_eq_true, if_neg] at h
      cases hr : findQL rest u with
      | none => simp [List.filter_cons, hx, findQL_none_filter rest u hr]
      | some p => rw [hr] at h; simp at h

theorem findQL_listUpdateAt (u : String) (f : QLDoc → QLDoc)
    (hf : ∀ x, (f x).userId = x.userId) :
    ∀ (l : List QLDoc) (i : Nat),
      findQL (Pipeline.listUpdateAt l i f) u =
        (findQL l u).map (fun p => (p.1, if p.1 == i then f p.2 else p.2))
  | [], _ => rfl
  | x :: rest, 0 => by
    by_cases hx : x.userId == u
    · simp [Pipeline.listUpdateAt, findQL, hf x, hx]
    · simp only [Pipeline.listUpdateAt, findQL, hf x, hx, Bool.false_eq_true, if_neg]
      cases hr : findQL rest u with
      | none => simp
      | some p => simp
  | x :: rest, i + 1 => by
    by_cases hx : x.userId == u
    · simp [Pipeline.listUpdateAt, findQL, hx]
    · simp only [Pipeline.listUpdateAt, findQL, hx, Bool.false_eq_true, if_neg]
      rw [findQL_listUpdateAt u f hf rest i]
      cases hr : findQL rest u with
      | none => simp
      | some p =>
        simp only [Option.map_some']
        by_cases hk : p.1 = i <;> simp [hk]

theorem findQL_append :
    ∀ (l l2 : List QLDoc) (u : String) (i : Nat) (q : QLDoc),
      findQL l u = some (i, q) → findQL (l ++ l2) u = some (i, q)
  | [], _, _, _, _, h => by simp [findQL] at h
  | x :: rest, l2, u, i, q, h => by
    by_cases hx : x.userId == u
    · simp only [List.cons_append, findQL, hx, if_pos] at h ⊢
      exact h
    · simp only [List.cons_append, findQL, hx, Bool.false_eq_true, if_false] at h ⊢
      cases hr : findQL rest u with
      | none => rw [hr] at h; simp at h
      | some p =>
        rw [hr] at h
        have hrec := findQL_append rest l2 u p.1 p.2 (by rw [hr])
        rw [show (rest.append l2) = rest ++ l2 from rfl] at *
        rw [hrec]
        simpa using h

theorem qlExists_append :
    ∀ (l : List QLDoc) (x : QLDoc) (u : String), x.userId = u →
      (findQL (l ++ [x]) u).isSome = true
  | [], x, u, hx => by simp [findQL, hx]
  | y :: rest, x, u, hx => by
    by_cases hy : y.userId == u
    · simp [findQL, hy]
    · simp only [List.cons_append, findQL, hy, Bool.false_eq_true, if_neg]
      have := qlExists_append rest x u hx
      cases hr : findQL (rest ++ [x]) u with
      | none => rw [hr] at this; simp at this
      | some p => simp

theorem findLatestLead_none_filter :
    ∀ (l : List LeadDoc) (u : String), findLatestLead l u = none →
      l.filter (fun x => x.userId == u) = []
  | [], _, _ => rfl
  | x :: rest, u, h => by
    by_cases hx : x.userId == u
    · simp only [findLatestLead, hx, if_pos] at h
      cases hr : (findLatestLead rest u).map (fun p => (p.1 + 1, p.2)) with
      | none => rw [hr] at h; simp at h
      | some p =>
        rcases p with ⟨j, m⟩
        rw [hr] at h
        split at h <;> ((try split at h) <;> simp at h)
    · simp only [findLatestLead, hx, Bool.false_eq_true, if_neg] at h
      cases hr : findLatestLead rest u with
      | none => simp [List.filter_cons, hx, findLatestLead_none_filter rest u hr]
      | some p => rw [hr] at h; simp at h

end IndexJs

/-! Helper lemmas about the claim race model and the generation client. -/

namespace Claiming

theorem run_cons (t : Tid) (sched : List Tid) (s : CSt) :
    run (t :: sched) s = run sched (step t s) := rfl

set_option maxRecDepth 4096 in
/-- One step preserves the claimed-flag invariant: flag set, every completed
read saw `true`, nobody past Claim. -/
theorem step_keeps_claimed :
    ∀ (t : Tid) (s : CSt),
      (s.flag = true ∧ (s.attA.phase = Phase.readDone → s.attA.saw = true) ∧
        (s.attB.phase = Phase.readDone → s.attB.saw = true) ∧
        s.attA.phase ≠ Phase.proceeded ∧ s.attB.phase ≠ Phase.proceeded) →
      ((step t s).flag = true ∧
        ((step t s).attA.phase = Phase.readDone → (step t s).attA.saw = true) ∧
        ((step t s).attB.phase = Phase.readDone → (step t s).attB.saw = true) ∧
        (step t s).attA.phase ≠ Phase.proceeded ∧
        (step t s).attB.phase ≠ Phase.proceeded) := by
  decide

/-- Any schedule preserves the claimed-flag invariant. -/
theorem run_keeps_claimed :
    ∀ (sched : List Tid) (s : CSt),
      (s.flag = true ∧ (s.attA.phase = Phase.readDone → s.attA.saw = true) ∧
        (s.attB.phase = Phase.readDone → s.attB.saw = true) ∧
        s.attA.phase ≠ Phase.proceeded ∧ s.attB.phase ≠ Phase.proceeded) →
      ((run sched s).flag = true ∧
        ((run sched s).attA.phase = Phase.readDone → (run sched s).attA.saw = true) ∧
        ((run sched s).attB.phase = Phase.readDone → (run sched s).attB.saw = true) ∧
        (run sched s).attA.phase ≠ Phase.proceeded ∧
        (run sched s).attB.phase ≠ Phase.proceeded) := by
  intro sched
  induction sched with
  | nil => exact fun s h => h
  | cons t r ih =>
    intro s h
    rw [run_cons]
    exact ih _ (step_keeps_claimed t s h)

end Claiming

namespace Pipeline

theorem callGeminiAPI_emptyKey {α : Type} (oracle : Nat → HttpResult α) :
    callGeminiAPI emptyStr oracle = (none, emptyGen) := rfl

/-- Under persistent transport failure, `retry(fn, 2, 500)` makes exactly
three attempts, sleeping 500 ms and then 1000 ms, and resolves to `null`. -/
theorem retryGemini_allFail {α : Type} (oracle : Nat → HttpResult α)
    (h : ∀ j, oracle j = HttpResult.fail) (i : Nat) :
    retryGemini oracle i 2 500 =
      (none, ⟨3, [timeout10s, timeout10s, timeout10s], [500, 1000]⟩) := by
  have e : ∀ j, geminiAttempt (oracle j) = Except.error () := by
    intro j; rw [h j]; rfl
  simp [retryGemini, e]

/-- Every attempt of the retried request carries the 10s timeout. -/
theorem retryGemini_timeouts {α : Type} (oracle : Nat → HttpResult α) :
    ∀ (r i d t : Nat), t ∈ (retryGemini oracle i r d).2.timeouts → t = timeout10s := by
  intro r
  induction r with
  | zero =>
    intro i d t ht
    unfold retryGemini at ht
    cases hg : geminiAttempt (oracle i) <;> rw [hg] at ht <;> simpa using ht
  | succ r ih =>
    intro i d t ht
    unfold retryGemini at ht
    cases hg : geminiAttempt (oracle i) with
    | ok v => rw [hg] at ht; simpa using ht
    | error e =>
      rw [hg] at ht
      simp at ht
      rcases ht with h1 | h2
      · exact h1
      · exact ih (i + 1) (d * 2) t h2

/-- Every request issued by `callGeminiAPI` carries the 10s timeout. -/
theorem callGeminiAPI_timeouts {α : Type} (apiKey : String)
    (oracle : Nat → HttpResult α) :
    ∀ t, t ∈ (callGeminiAPI apiKey oracle).2.timeouts → t = timeout10s := by
  intro t ht
  unfold callGeminiAPI at ht
  by_cases hk : apiKey == ""
  · rw [if_pos hk] at ht; simp [emptyGen] at ht
  · rw [if_neg hk] at ht; exact retryGemini_timeouts oracle 2 0 500 t ht

end Pipeline

namespace IndexJs

open Pipeline

/-- A dispatch snapshot that already shows `processing = true` aborts with no
side effect at all: same store, no generation traffic, empty trace. -/
theorem processMessage_aborted (docId : String) (message : RawMsg) (apiKey : String)
    (cO : Nat → HttpResult Classification) (qO : Nat → HttpResult Qualification)
    (eO : Nat → HttpResult Extraction) (rO : HttpResult String)
    (faults : Nat → Bool) (releaseFault : Bool) (now : Nat) (st0 : Store)
    (h : message.processing = true) :
    processMessage docId message apiKey cO qO eO rO faults releaseFault now st0 =
      ⟨Outcome.aborted, st0, noStats⟩ := by
  unfold processMessage
  simp [h]

/-- The catch-release step only appends to the trace. -/
theorem catchRelease_claimFirst (docId : String) (releaseFault : Bool)
    (st : Store) (ps : PStats) (h : ∃ tr0, ps.trace = Ev.claimSet :: tr0) :
    ∃ tr, (catchRelease docId releaseFault st ps).stats.trace = Ev.claimSet :: tr := by
  obtain ⟨tr0, h0⟩ := h
  unfold catchRelease
  split
  · exact ⟨tr0, h0⟩
  · exact ⟨tr0 ++ [Ev.storeWrite], by simp [h0]⟩

/-- The persistence steps only append to the trace. -/
theorem finishLead_claimFirst (docId userId phoneNumber : String) (message : RawMsg)
    (intent : String) (existingLead : Option (Nat × LeadDoc))
    (qualifiedLeadDocRef : Option Nat) (totalMessages : Nat) (isQualified : Bool)
    (leadPriority autoReply : String) (curName curEmail : Option String)
    (faults : Nat → Bool) (releaseFault : Bool) (now : Nat)
    (st : Store) (ps : PStats) (h : ∃ tr0, ps.trace = Ev.claimSet :: tr0) :
    ∃ tr, (finishLead docId userId phoneNumber message intent existingLead
        qualifiedLeadDocRef totalMessages isQualified leadPriority autoReply
        curName curEmail faults releaseFault now st ps).stats.trace =
      Ev.claimSet :: tr := by
  obtain ⟨tr0, h0⟩ := h
  unfold finishLead catchRelease
  dsimp only
  repeat' split
  all_goals simp [h0]

/-- Once the claim update has applied, every exit of the processor carries it
as the first recorded event: the claim precedes every generation request and
every other store write. -/
theorem processMessage_trace_claimFirst (docId : String) (message : RawMsg)
    (apiKey : String)
    (cO : Nat → HttpResult Classification) (qO : Nat → HttpResult Qualification)
    (eO : Nat → HttpResult Extraction) (rO : HttpResult String)
    (faults : Nat → Bool) (releaseFault : Bool) (now : Nat) (st0 : Store)
    (hp : message.processing = false) (h0 : faults 0 = false) :
    ∃ tr, (processMessage docId message apiKey cO qO eO rO faults
        releaseFault now st0).stats.trace = Ev.claimSet :: tr := by
  unfold processMessage
  rw [if_neg (by simp [hp])]
  rw [if_neg (by simp [h0])]
  dsimp only
  split
  · split
    · exact catchRelease_claimFirst _ _ _ _ ⟨_, rfl⟩
    · split
      · exact catchRelease_claimFirst _ _ _ _ ⟨_, rfl⟩
      · refine finishLead_claimFirst _ _ _ _ _ _ _ _ _ _ _ _ _ _ _ _ _ _ ?_
        simp
  · split
    · exact catchRelease_claimFirst _ _ _ _ ⟨_, rfl⟩
    · simp

end IndexJs

namespace IndexJs

open Pipeline

/-- When classification does not yield a lead, the processor terminates the
message with `processed := true, processing := false` and touches nothing
else: no Lead or QualifiedLead write, no Qualify / Extract / Reply request. -/
theorem processMessage_notLead (docId : String) (message : RawMsg) (apiKey : String)
    (cO : Nat → HttpResult Classification) (qO : Nat → HttpResult Qualification)
    (eO : Nat → HttpResult Extraction) (rO : HttpResult String)
    (faults : Nat → Bool) (releaseFault : Bool) (now : Nat) (st0 : Store)
    (m0 : RawMsg)
    (hm : findRaw st0 docId = some m0)
    (hp : message.processing = false) (h0 : faults 0 = false) (h5 : faults 5 = false)
    (hc : (classifyMessage message.body apiKey cO).1.isLead = false) :
    (processMessage docId message apiKey cO qO eO rO faults releaseFault now
        st0).outcome = Outcome.completed ∧
    findRaw (processMessage docId message apiKey cO qO eO rO faults releaseFault now
        st0).store docId = some { m0 with processed := true, processing := false } ∧
    (processMessage docId message apiKey cO qO eO rO faults releaseFault now
        st0).store.leads = st0.leads ∧
    (processMessage docId message apiKey cO qO eO rO faults releaseFault now
        st0).store.qleads = st0.qleads ∧
    (processMessage docId message apiKey cO qO eO rO faults releaseFault now
        st0).stats.classifyS = (classifyMessage message.body apiKey cO).2 ∧
    (processMessage docId message apiKey cO qO eO rO faults releaseFault now
        st0).stats.qualifyS = emptyGen ∧
    (processMessage docId message apiKey cO qO eO rO faults releaseFault now
        st0).stats.extractS = emptyGen ∧
    (processMessage docId message apiKey cO qO eO rO faults releaseFault now
        st0).stats.replyS = emptyGen := by
  unfold processMessage
  rw [if_neg (by simp [hp])]
  rw [if_neg (by simp [h0])]
  dsimp only
  rw [if_neg (by simp [hc])]
  rw [if_neg (by simp [h5])]
  refine ⟨rfl, ?_, rfl, rfl, rfl, rfl, rfl, rfl⟩
  rw [findRaw_rawUpdate, findRaw_rawUpdate, hm]
  rfl

end IndexJs

/-! Claim theorems. -/

namespace IndexJs

open Pipeline

/-- C1, counterexample: the claim asserts that of two concurrent attempts on
the same raw message with `processing = false`, at most one proceeds past
Claim.  In the two-step embedding of the source's check-then-act sequence
(snapshot read of `processing`, then the separate unconditional claim write),
the interleaving read-A, read-B, write-A, write-B starts from an unclaimed
message and ends with BOTH attempts past Claim, refuting the claimed mutual
exclusion and with it the premise that the flag is set by a single atomic
read-modify-write. -/
theorem c1_both_proceed_counterexample :
    Claiming.init.flag = false ∧
    (Claiming.run [Claiming.Tid.A, Claiming.Tid.B, Claiming.Tid.A, Claiming.Tid.B]
        Claiming.init).attA.phase = Claiming.Phase.proceeded ∧
    (Claiming.run [Claiming.Tid.A, Claiming.Tid.B, Claiming.Tid.A, Claiming.Tid.B]
        Claiming.init).attB.phase = Claiming.Phase.proceeded := by
  decide

/-- C1 (amended): the Claim step is a check-then-act pair, not an atomic
read-modify-write.  What holds: (1) with `processing` already persisted
`true`, no attempt ever proceeds past Claim under any interleaving; (2) a
fully sequentialised second attempt observes the claim write and aborts;
(3) a snapshot showing `processing = true` aborts with no side effect at all
(same store, no generation traffic, empty trace); (4) otherwise the claim
update is the first recorded event of the attempt, before any generation
request or other store write.  What fails (see the counterexample): two
attempts that both read `processing = false` before either writes may both
proceed. -/
theorem c1_claim_check_then_act :
    (∀ (sched : List Claiming.Tid) (sawA sawB : Bool),
        (Claiming.run sched
            ⟨true, ⟨Claiming.Phase.start, sawA⟩, ⟨Claiming.Phase.start, sawB⟩⟩).attA.phase ≠
          Claiming.Phase.proceeded ∧
        (Claiming.run sched
            ⟨true, ⟨Claiming.Phase.start, sawA⟩, ⟨Claiming.Phase.start, sawB⟩⟩).attB.phase ≠
          Claiming.Phase.proceeded) ∧
    ((Claiming.run [Claiming.Tid.A, Claiming.Tid.A, Claiming.Tid.B, Claiming.Tid.B]
        Claiming.init).attA.phase = Claiming.Phase.proceeded ∧
      (Claiming.run [Claiming.Tid.A, Claiming.Tid.A, Claiming.Tid.B, Claiming.Tid.B]
        Claiming.init).attB.phase = Claiming.Phase.aborted) ∧
    (∀ (docId : String) (message : RawMsg) (apiKey : String)
        (cO : Nat → HttpResult Classification) (qO : Nat → HttpResult Qualification)
        (eO : Nat → HttpResult Extraction) (rO : HttpResult String)
        (faults : Nat → Bool) (releaseFault : Bool) (now : Nat) (st0 : Store),
        message.processing = true →
        processMessage docId message apiKey cO qO eO rO faults releaseFault now st0 =
          ⟨Outcome.aborted, st0, noStats⟩) ∧
    (∀ (docId : String) (message : RawMsg) (apiKey : String)
        (cO : Nat → HttpResult Classification) (qO : Nat → HttpResult Qualification)
        (eO : Nat → HttpResult Extraction) (rO : HttpResult String)
        (faults : Nat → Bool) (releaseFault : Bool) (now : Nat) (st0 : Store),
        message.processing = false → faults 0 = false →
        ∃ tr, (processMessage docId message apiKey cO qO eO rO faults
            releaseFault now st0).stats.trace = Ev.claimSet :: tr) := by
  refine ⟨?_, ⟨by decide, by decide⟩, ?_, ?_⟩
  · intro sched sawA sawB
    have h := Claiming.run_keeps_claimed sched
      ⟨true, ⟨Claiming.Phase.start, sawA⟩, ⟨Claiming.Phase.start, sawB⟩⟩
      (by refine ⟨rfl, ?_, ?_, ?_, ?_⟩ <;> simp)
    exact ⟨h.2.2.2.1, h.2.2.2.2⟩
  · intro docId message apiKey cO qO eO rO faults releaseFault now st0 h
    exact processMessage_aborted docId message apiKey cO qO eO rO faults
      releaseFault now st0 h
  · intro docId message apiKey cO qO eO rO faults releaseFault now st0 hp h0
    exact processMessage_trace_claimFirst docId message apiKey cO qO eO rO faults
      releaseFault now st0 hp h0

/-- Witness for `c1_claim_check_then_act` at a concrete busy message. -/
theorem c1_claim_check_then_act_witness :
    wMsgBusy.processing = true ∧
    processMessage wId wMsgBusy wKey wFailC wFailQ wFailE HttpResult.fail
        noFaults false 0 wStore = ⟨Outcome.aborted, wStore, noStats⟩ :=
  ⟨rfl, c1_claim_check_then_act.2.2.1 wId wMsgBusy wKey wFailC wFailQ wFailE
    HttpResult.fail noFaults false 0 wStore rfl⟩

end IndexJs

namespace Pipeline

/-- C7, counterexample: the claim states the Classify fallback is
`{isLead:false, intent:"unknown"}`; the code's fallback intent is the
capitalised string `"Unknown"`.  Also, the Reply call-site does not check
`response.ok`: a non-2xx response that still carries candidate text returns
that text, not the courtesy fallback the claim promises for every non-2xx
status. -/
theorem c7_fallback_counterexample :
    (classifyMessage wBody wKey wFailC).1.intent = unknownIntent ∧
    unknownIntent ≠ "unknown" ∧
    (generateReply wBody wIntent false false true true
        (HttpResult.resp false (some wReply))).1 = wReply ∧
    wReply ≠ courtesyReply := by
  decide

/-- C7 (amended): fallback totality, with the Classify fallback intent spelled
`"Unknown"` and with the Reply call-site falling back exactly on a thrown
request (transport error, timeout, `response.json()` failure) or on missing or
empty reply text — a non-2xx reply response that still carries text yields
that text.  Whenever `callGeminiAPI` resolves `null` (every attempt threw, or
the response carried no parseable text), Classify, Qualify and Extract return
their fixed fallbacks and no exception escapes; and with the generation
service entirely down the processor still completes and persists the terminal
state its fallback dictates. -/
theorem c7_fallback_totality :
    (∀ (b k : String) (o : Nat → HttpResult Classification),
        (callGeminiAPI k o).1 = none →
        (classifyMessage b k o).1 = ⟨false, unknownIntent⟩) ∧
    (∀ (b : String) (tm : Nat) (intent k : String)
        (o : Nat → HttpResult Qualification),
        (callGeminiAPI k o).1 = none →
        (qualifyLead b tm intent k o).1 = ⟨false, lowPriority⟩) ∧
    (∀ (b k : String) (o : Nat → HttpResult Extraction),
        (callGeminiAPI k o).1 = none →
        (extractData b k o).1 = ⟨none, none⟩) ∧
    (∀ (b intent : String) (rc q mn me : Bool),
        (generateReply b intent rc q mn me HttpResult.fail).1 = courtesyReply ∧
        (∀ ok : Bool,
          (generateReply b intent rc q mn me (HttpResult.resp ok none)).1 =
            courtesyReply ∧
          (generateReply b intent rc q mn me
              (HttpResult.resp ok (some emptyStr))).1 = courtesyReply)) ∧
    (∀ (docId : String) (message : IndexJs.RawMsg) (apiKey : String)
        (cO : Nat → HttpResult Classification) (qO : Nat → HttpResult Qualification)
        (eO : Nat → HttpResult Extraction) (rO : HttpResult String)
        (faults : Nat → Bool) (releaseFault : Bool) (now : Nat)
        (st0 : IndexJs.Store) (m0 : IndexJs.RawMsg),
        IndexJs.findRaw st0 docId = some m0 → message.processing = false →
        faults 0 = false → faults 5 = false → (∀ j, cO j = HttpResult.fail) →
        (IndexJs.processMessage docId message apiKey cO qO eO rO faults
            releaseFault now st0).outcome = IndexJs.Outcome.completed ∧
        IndexJs.findRaw (IndexJs.processMessage docId message apiKey cO qO eO rO
            faults releaseFault now st0).store docId =
          some { m0 with processed := true, processing := false }) := by
  refine ⟨?_, ?_, ?_, ?_, ?_⟩
  · intro b k o h; simp [classifyMessage, h]
  · intro b tm intent k o h; simp [qualifyLead, h]
  · intro b k o h; simp [extractData, h]
  · intro b intent rc q mn me
    refine ⟨rfl, fun ok => ⟨rfl, ?_⟩⟩
    simp [generateReply, emptyStr]
  · intro docId message apiKey cO qO eO rO faults releaseFault now st0 m0
      hm hp h0 h5 hall
    have hnone : (callGeminiAPI apiKey cO).1 = none := by
      unfold callGeminiAPI
      split
      · rfl
      · rw [retryGemini_allFail cO hall 0]
    have hc : (classifyMessage message.body apiKey cO).1.isLead = false := by
      simp [classifyMessage, hnone]
    have h := IndexJs.processMessage_notLead docId message apiKey cO qO eO rO
      faults releaseFault now st0 m0 hm hp h0 h5 hc
    exact ⟨h.1, h.2.1⟩

/-- Witness for `c7_fallback_totality` at a concrete all-failing transport. -/
theorem c7_fallback_totality_witness :
    (callGeminiAPI wKey wFailC).1 = none ∧
    (classifyMessage wBody wKey wFailC).1 = ⟨false, unknownIntent⟩ :=
  ⟨by decide, c7_fallback_totality.1 wBody wKey wFailC (by decide)⟩

/-- C8, counterexample: the claim states every one of the four call-sites is
retried with exponential backoff (a 2-retry budget) before resolving
Unavailable.  Under persistent transport failure the Classify call-site indeed
makes 3 attempts with delays 500 ms and 1000 ms, but the Reply call-site makes
exactly one attempt, sleeps no backoff delay, and resolves to the courtesy
fallback: the reply request is not retried. -/
theorem c8_reply_no_retry_counterexample :
    (classifyMessage wBody wKey wFailC).2.requests = 3 ∧
    (classifyMessage wBody wKey wFailC).2.delays = [500, 1000] ∧
    (generateReply wBody wIntent false false true true HttpResult.fail).2.requests = 1 ∧
    (generateReply wBody wIntent false false true true HttpResult.fail).2.delays = [] ∧
    (generateReply wBody wIntent false false true true HttpResult.fail).1 =
      courtesyReply ∧
    (1 : Nat) ≠ 3 := by
  decide

/-- C8 (amended): every generation request — on all four call-sites — is
bounded by the 10-second cancellation timeout; the Classify, Qualify and
Extract call-sites go through `retry(fn, 2, 500)`, so under persistent
transport failure or non-2xx status they make exactly three attempts with
backoff delays 500 ms then 1000 ms before resolving Unavailable; the Reply
call-site makes a single attempt with no retry and falls back on failure. -/
theorem c8_timeout_retry_policy :
    (∀ {α : Type} (k : String) (o : Nat → HttpResult α) (t : Nat),
        t ∈ (callGeminiAPI k o).2.timeouts → t = timeout10s) ∧
    (∀ (b intent : String) (rc q mn me : Bool) (o1 : HttpResult String),
        (generateReply b intent rc q mn me o1).2.timeouts = [timeout10s] ∧
        (generateReply b intent rc q mn me o1).2.requests = 1 ∧
        (generateReply b intent rc q mn me o1).2.delays = []) ∧
    (∀ {α : Type} (k : String) (o : Nat → HttpResult α),
        k ≠ "" → (∀ j, o j = HttpResult.fail) →
        callGeminiAPI k o =
          (none, ⟨3, [timeout10s, timeout10s, timeout10s], [500, 1000]⟩)) := by
  refine ⟨?_, ?_, ?_⟩
  · intro α k o t ht; exact callGeminiAPI_timeouts k o t ht
  · intro b intent rc q mn me o1
    cases o1 with
    | fail => exact ⟨rfl, rfl, rfl⟩
    | resp ok body =>
      cases body with
      | none => exact ⟨rfl, rfl, rfl⟩
      | some t => simp [generateReply]
  · intro α k o hk hall
    unfold callGeminiAPI
    rw [if_neg (by simpa using hk)]
    exact retryGemini_allFail o hall 0

/-- Witness for `c8_timeout_retry_policy` at a concrete all-failing
transport. -/
theorem c8_timeout_retry_policy_witness :
    wKey ≠ "" ∧ (∀ j, wFailC j = HttpResult.fail) ∧
    callGeminiAPI wKey wFailC =
      (none, ⟨3, [timeout10s, timeout10s, timeout10s], [500, 1000]⟩) :=
  ⟨by decide, fun j => rfl,
    c8_timeout_retry_policy.2.2 wKey wFailC (by decide) (fun j => rfl)⟩

end Pipeline

namespace IndexJs

open Pipeline

/-- C10: with an empty generation API key, `callGeminiAPI` returns `null`
immediately, so Classify, Qualify and Extract each return their fixed
fallback deterministically — independent of the transport oracle — with zero
HTTP requests issued; and the processor still completes, persisting the
terminal state the Classify fallback dictates (`processed = true`,
`processing = false`), again without any generation request. -/
theorem c10_empty_key_fallbacks :
    (∀ (b : String) (o : Nat → HttpResult Classification),
        classifyMessage b emptyStr o = (⟨false, unknownIntent⟩, emptyGen)) ∧
    (∀ (b : String) (tm : Nat) (intent : String) (o : Nat → HttpResult Qualification),
        qualifyLead b tm intent emptyStr o = (⟨false, lowPriority⟩, emptyGen)) ∧
    (∀ (b : String) (o : Nat → HttpResult Extraction),
        extractData b emptyStr o = (⟨none, none⟩, emptyGen)) ∧
    (∀ (docId : String) (message : RawMsg)
        (cO : Nat → HttpResult Classification) (qO : Nat → HttpResult Qualification)
        (eO : Nat → HttpResult Extraction) (rO : HttpResult String)
        (faults : Nat → Bool) (releaseFault : Bool) (now : Nat)
        (st0 : Store) (m0 : RawMsg),
        findRaw st0 docId = some m0 → message.processing = false →
        faults 0 = false → faults 5 = false →
        (processMessage docId message emptyStr cO qO eO rO faults releaseFault now
            st0).outcome = Outcome.completed ∧
        findRaw (processMessage docId message emptyStr cO qO eO rO faults
            releaseFault now st0).store docId =
          some { m0 with processed := true, processing := false } ∧
        (processMessage docId message emptyStr cO qO eO rO faults releaseFault now
            st0).stats.classifyS.requests = 0 ∧
        (processMessage docId message emptyStr cO qO eO rO faults releaseFault now
            st0).stats.qualifyS.requests = 0 ∧
        (processMessage docId message emptyStr cO qO eO rO faults releaseFault now
            st0).stats.extractS.requests = 0 ∧
        (processMessage docId message emptyStr cO qO eO rO faults releaseFault now
            st0).stats.replyS.requests = 0) := by
  refine ⟨?_, ?_, ?_, ?_⟩
  · intro b o; rfl
  · intro b tm intent o; rfl
  · intro b o; rfl
  · intro docId message cO qO eO rO faults releaseFault now st0 m0 hm hp h0 h5
    have hc : (classifyMessage message.body emptyStr cO).1.isLead = false := rfl
    have h := processMessage_notLead docId message emptyStr cO qO eO rO
      faults releaseFault now st0 m0 hm hp h0 h5 hc
    refine ⟨h.1, h.2.1, ?_, ?_, ?_, ?_⟩
    · rw [h.2.2.2.2.1]; rfl
    · rw [h.2.2.2.2.2.1]; rfl
    · rw [h.2.2.2.2.2.2.1]; rfl
    · rw [h.2.2.2.2.2.2.2]; rfl

/-- Witness for `c10_empty_key_fallbacks` at the sample message and store. -/
theorem c10_empty_key_fallbacks_witness :
    findRaw wStore wId = some wMsg ∧ wMsg.processing = false ∧
    (processMessage wId wMsg emptyStr wLeadC wOkQ wOkE wOkR noFaults false 0
        wStore).outcome = Outcome.completed := by
  refine ⟨by decide, rfl, ?_⟩
  exact (c10_empty_key_fallbacks.2.2.2 wId wMsg wLeadC wOkQ wOkE wOkR noFaults
    false 0 wStore wMsg (by decide) rfl rfl rfl).1

end IndexJs

namespace IndexJs

open Pipeline

/-- The raw-message collection ignores lead-collection updates. -/
theorem findRaw_mk (raw : List (String × RawMsg)) (l : List LeadDoc)
    (q : List QLDoc) (d : String) :
    findRaw ⟨raw, l, q⟩ d = (raw.find? (fun p => p.1 == d)).map (fun p => p.2) := rfl

/-- List-level form of a per-document update observed through lookup. -/
theorem find_map_update (l : List (String × RawMsg)) (docId : String)
    (f : RawMsg → RawMsg) :
    Option.map (fun p => p.2)
      (List.find? (fun p => p.1 == docId)
        (List.map (fun p => if p.1 == docId then (p.1, f p.2) else p) l)) =
    Option.map (fun p => f p.2) (List.find? (fun p => p.1 == docId) l) := by
  induction l with
  | nil => rfl
  | cons x rest ih =>
    by_cases h : x.1 == docId
    · simp [List.find?, h]
    · simpa [List.find?, h] using ih

/-- Every exit of the persistence phase, classified by its outcome and its
effect on the processed raw message: `completed` applies the final update on
top of the claim; `caught` only releases the claim; `escapedRelease` (which
requires an injected release fault) leaves the raw message as it stood when
the exception was thrown. -/
theorem finishLead_raw (docId userId phoneNumber : String) (message : RawMsg)
    (intent : String) (existingLead : Option (Nat × LeadDoc))
    (qualifiedLeadDocRef : Option Nat) (totalMessages : Nat) (isQualified : Bool)
    (leadPriority autoReply : String) (curName curEmail : Option String)
    (faults : Nat → Bool) (releaseFault : Bool) (now : Nat)
    (st : Store) (ps : PStats) :
    ((finishLead docId userId phoneNumber message intent existingLead
        qualifiedLeadDocRef totalMessages isQualified leadPriority autoReply
        curName curEmail faults releaseFault now st ps).outcome = Outcome.completed ∧
      findRaw (finishLead docId userId phoneNumber message intent existingLead
          qualifiedLeadDocRef totalMessages isQualified leadPriority autoReply
          curName curEmail faults releaseFault now st ps).store docId =
        (findRaw st docId).map (fun m =>
          { m with processed := true, isLead := some true,
                   isQualified := some isQualified, priority := some leadPriority,
                   autoReplyText := some autoReply,
                   messageCount := some totalMessages, processing := false })) ∨
    ((finishLead docId userId phoneNumber message intent existingLead
        qualifiedLeadDocRef totalMessages isQualified leadPriority autoReply
        curName curEmail faults releaseFault now st ps).outcome = Outcome.caught ∧
      findRaw (finishLead docId userId phoneNumber message intent existingLead
          qualifiedLeadDocRef totalMessages isQualified leadPriority autoReply
          curName curEmail faults releaseFault now st ps).store docId =
        (findRaw st docId).map (fun m => { m with processing := false })) ∨
    (releaseFault = true ∧
      (finishLead docId userId phoneNumber message intent existingLead
          qualifiedLeadDocRef totalMessages isQualified leadPriority autoReply
          curName curEmail faults releaseFault now st ps).outcome =
        Outcome.escapedRelease ∧
      findRaw (finishLead docId userId phoneNumber message intent existingLead
          qualifiedLeadDocRef totalMessages isQualified leadPriority autoReply
          curName curEmail faults releaseFault now st ps).store docId =
        findRaw st docId) := by
  unfold finishLead catchRelease
  dsimp only
  repeat' split
  all_goals simp only [findRaw_rawUpdate]
  all_goals simp_all [findRaw, Option.map_map, Function.comp]

end IndexJs

namespace IndexJs

open Pipeline

/-- The catch-release step never touches the `qualified_leads` collection. -/
theorem catchRelease_qleads (docId : String) (releaseFault : Bool) (st : Store)
    (ps : PStats) : (catchRelease docId releaseFault st ps).store.qleads = st.qleads := by
  unfold catchRelease; split <;> rfl

/-- The catch-release step never touches the `leads` collection. -/
theorem catchRelease_leads (docId : String) (releaseFault : Bool) (st : Store)
    (ps : PStats) : (catchRelease docId releaseFault st ps).store.leads = st.leads := by
  unfold catchRelease; split <;> rfl

/-- The catch-release step never reports a completed run. -/
theorem catchRelease_not_completed (docId : String) (releaseFault : Bool) (st : Store)
    (ps : PStats) : (catchRelease docId releaseFault st ps).outcome ≠ Outcome.completed := by
  unfold catchRelease; split <;> simp

/-- Effect of the persistence phase on the `qualified_leads` collection:
either untouched (and then a completed run was unqualified), or — for a
qualified message — exactly one write: create when no document reference was
found, else the four-field merge update on the found document. -/
theorem finishLead_qleads (docId userId phoneNumber : String) (message : RawMsg)
    (intent : String) (existingLead : Option (Nat × LeadDoc))
    (qualifiedLeadDocRef : Option Nat) (totalMessages : Nat) (isQualified : Bool)
    (leadPriority autoReply : String) (curName curEmail : Option String)
    (faults : Nat → Bool) (releaseFault : Bool) (now : Nat)
    (st : Store) (ps : PStats) :
    ((finishLead docId userId phoneNumber message intent existingLead
        qualifiedLeadDocRef totalMessages isQualified leadPriority autoReply
        curName curEmail faults releaseFault now st ps).store.qleads = st.qleads ∧
      ((finishLead docId userId phoneNumber message intent existingLead
          qualifiedLeadDocRef totalMessages isQualified leadPriority autoReply
          curName curEmail faults releaseFault now st ps).outcome =
            Outcome.completed → isQualified = false)) ∨
    (isQualified = true ∧
      (finishLead docId userId phoneNumber message intent existingLead
          qualifiedLeadDocRef totalMessages isQualified leadPriority autoReply
          curName curEmail faults releaseFault now st ps).store.qleads =
        (match qualifiedLeadDocRef with
         | none => st.qleads ++
             [⟨userId, phoneNumber, docId, intent, some leadPriority, totalMessages,
               autoReply, curName, curEmail, now, none⟩]
         | some qi => listUpdateAt st.qleads qi (fun q =>
             { q with name := curName, email := curEmail,
                      messageCount := totalMessages, lastActive := some now }))) := by
  unfold finishLead
  dsimp only
  by_cases h3 : (isQualified && faults 3) = true
  · rw [if_pos h3]
    exact Or.inl ⟨catchRelease_qleads _ _ _ _,
      fun hco => (catchRelease_not_completed _ _ _ _ hco).elim⟩
  · rw [if_neg h3]
    by_cases hq : isQualified = true
    · refine Or.inr ⟨hq, ?_⟩
      by_cases h4 : faults 4 = true
      · rw [if_pos h4, catchRelease_qleads]
        simp only [hq, if_true]
        cases qualifiedLeadDocRef <;> rfl
      · rw [if_neg h4]
        by_cases h5 : faults 5 = true
        · rw [if_pos h5, catchRelease_qleads]
          simp only [hq, if_true]
          cases qualifiedLeadDocRef with
          | none => cases existingLead with
            | none => simp
            | some p => simp
          | some qi => cases existingLead with
            | none => simp
            | some p => simp
        · rw [if_neg h5]
          simp only [hq, if_true, rawUpdate_qleads]
          cases qualifiedLeadDocRef with
          | none => cases existingLead with
            | none => simp
            | some p => simp
          | some qi => cases existingLead with
            | none => simp
            | some p => simp
    · refine Or.inl ⟨?_, fun _ => by simpa using hq⟩
      by_cases h4 : faults 4 = true
      · rw [if_pos h4, catchRelease_qleads]
        simp [hq]
      · rw [if_neg h4]
        by_cases h5 : faults 5 = true
        · rw [if_pos h5, catchRelease_qleads]
          simp only [hq, if_false, Bool.false_eq_true]
          cases existingLead with
          | none => simp
          | some p => simp
        · rw [if_neg h5]
          simp only [rawUpdate_qleads, hq, if_false, Bool.false_eq_true]
          cases existingLead with
          | none => simp
          | some p => simp

/-- Effect of the persistence phase on the `leads` collection: untouched, or
one create for a sender with no lead, or one three-field update on the lead
the query found. -/
theorem finishLead_leads (docId userId phoneNumber : String) (message : RawMsg)
    (intent : String) (existingLead : Option (Nat × LeadDoc))
    (qualifiedLeadDocRef : Option Nat) (totalMessages : Nat) (isQualified : Bool)
    (leadPriority autoReply : String) (curName curEmail : Option String)
    (faults : Nat → Bool) (releaseFault : Bool) (now : Nat)
    (st : Store) (ps : PStats) :
    (finishLead docId userId phoneNumber message intent existingLead
        qualifiedLeadDocRef totalMessages isQualified leadPriority autoReply
        curName curEmail faults releaseFault now st ps).store.leads = st.leads ∨
    (existingLead = none ∧
      (finishLead docId userId phoneNumber message intent existingLead
          qualifiedLeadDocRef totalMessages isQualified leadPriority autoReply
          curName curEmail faults releaseFault now st ps).store.leads =
        st.leads ++
          [⟨userId, phoneNumber, intent, message.body, totalMessages, now, none⟩]) ∨
    (∃ li l0, existingLead = some (li, l0) ∧
      (finishLead docId userId phoneNumber message intent existingLead
          qualifiedLeadDocRef totalMessages isQualified leadPriority autoReply
          curName curEmail faults releaseFault now st ps).store.leads =
        listUpdateAt st.leads li (fun l =>
          { l with intent := intent, messageCount := totalMessages,
                   lastActive := some now })) := by
  have hstq : ∀ b : Bool,
      (if b = true then
        (match qualifiedLeadDocRef with
         | none =>
           ({ st with qleads := st.qleads ++
               [⟨userId, phoneNumber, docId, intent, some leadPriority, totalMessages,
                 autoReply, curName, curEmail, now, none⟩] } : Store)
         | some qi =>
           { st with qleads := listUpdateAt st.qleads qi (fun q =>
               { q with name := curName, email := curEmail,
                        messageCount := totalMessages, lastActive := some now }) })
        else st).leads = st.leads := by
    intro b
    cases b with
    | false => rfl
    | true => cases qualifiedLeadDocRef <;> rfl
  unfold finishLead
  dsimp only
  by_cases h3 : (isQualified && faults 3) = true
  · rw [if_pos h3]
    exact Or.inl (catchRelease_leads _ _ _ _)
  · rw [if_neg h3]
    by_cases h4 : faults 4 = true
    · rw [if_pos h4, catchRelease_leads, hstq]
      exact Or.inl rfl
    · rw [if_neg h4]
      cases existingLead with
      | none =>
        by_cases h5 : faults 5 = true
        · rw [if_pos h5, catchRelease_leads]
          refine Or.inr (Or.inl ⟨rfl, ?_⟩)
          simp only [Option.isSome_none, Bool.not_false, if_true]
          rw [hstq]
        · rw [if_neg h5]
          refine Or.inr (Or.inl ⟨rfl, ?_⟩)
          simp only [rawUpdate_leads, Option.isSome_none, Bool.not_false, if_true]
          rw [hstq]
      | some p =>
        refine Or.inr (Or.inr ⟨p.1, p.2, rfl, ?_⟩)
        by_cases h5 : faults 5 = true
        · rw [if_pos h5, catchRelease_leads]
          simp only [Option.isSome_some, Bool.not_true, Bool.false_eq_true, if_false]
          rw [hstq]
        · rw [if_neg h5]
          simp only [rawUpdate_leads, Option.isSome_some, Bool.not_true,
            Bool.false_eq_true, if_false]
          rw [hstq]

end IndexJs

namespace IndexJs

open Pipeline

/-- Unfolded form of `findRaw_rawUpdate`, matching the lookup after `findRaw`
has been unfolded. -/
theorem findRaw_rawUpdate_unfolded (st : Store) (docId : String)
    (f : RawMsg → RawMsg) :
    Option.map (fun p => p.2)
      (List.find? (fun p => p.1 == docId) (rawUpdate st docId f).raw) =
    Option.map f
      (Option.map (fun p => p.2) (List.find? (fun p => p.1 == docId) st.raw)) :=
  findRaw_rawUpdate st docId f

/-- Release specification of the catch block, shaped for direct use at a
catch-release call site. -/
theorem catchRelease_spec (docId : String) (releaseFault : Bool) (st : Store)
    (ps : PStats) (m1 : RawMsg)
    (hm1 : findRaw st docId = some m1) (hrf : releaseFault = false) :
    ((catchRelease docId releaseFault st ps).outcome = Outcome.completed ∨
      (catchRelease docId releaseFault st ps).outcome = Outcome.caught) ∧
    ((catchRelease docId releaseFault st ps).outcome = Outcome.caught →
      ∃ m', findRaw (catchRelease docId releaseFault st ps).store docId = some m' ∧
        m'.processing = false ∧ m'.processed = m1.processed) ∧
    ((catchRelease docId releaseFault st ps).outcome = Outcome.completed →
      ∃ m', findRaw (catchRelease docId releaseFault st ps).store docId = some m' ∧
        m'.processing = false ∧ m'.processed = true) := by
  unfold catchRelease
  rw [if_neg (by simp [hrf])]
  refine ⟨Or.inr rfl, fun _ => ?_, fun hco => by cases hco⟩
  exact ⟨{ m1 with processing := false },
    by rw [findRaw_rawUpdate, hm1]; rfl, rfl, rfl⟩

/-- Release specification of the persistence phase, shaped for direct use at
its call site inside the processor. -/
theorem finishLead_release_on_fault (docId userId phoneNumber : String)
    (message : RawMsg) (intent : String) (existingLead : Option (Nat × LeadDoc))
    (qualifiedLeadDocRef : Option Nat) (totalMessages : Nat) (isQualified : Bool)
    (leadPriority autoReply : String) (curName curEmail : Option String)
    (faults : Nat → Bool) (releaseFault : Bool) (now : Nat)
    (st : Store) (ps : PStats) (m1 : RawMsg)
    (hm1 : findRaw st docId = some m1) (hrf : releaseFault = false) :
    ((finishLead docId userId phoneNumber message intent existingLead
        qualifiedLeadDocRef totalMessages isQualified leadPriority autoReply
        curName curEmail faults releaseFault now st ps).outcome =
          Outcome.completed ∨
      (finishLead docId userId phoneNumber message intent existingLead
        qualifiedLeadDocRef totalMessages isQualified leadPriority autoReply
        curName curEmail faults releaseFault now st ps).outcome = Outcome.caught) ∧
    ((finishLead docId userId phoneNumber message intent existingLead
        qualifiedLeadDocRef totalMessages isQualified leadPriority autoReply
        curName curEmail faults releaseFault now st ps).outcome = Outcome.caught →
      ∃ m', findRaw (finishLead docId userId phoneNumber message intent existingLead
          qualifiedLeadDocRef totalMessages isQualified leadPriority autoReply
          curName curEmail faults releaseFault now st ps).store docId = some m' ∧
        m'.processing = false ∧ m'.processed = m1.processed) ∧
    ((finishLead docId userId phoneNumber message intent existingLead
        qualifiedLeadDocRef totalMessages isQualified leadPriority autoReply
        curName curEmail faults releaseFault now st ps).outcome =
          Outcome.completed →
      ∃ m', findRaw (finishLead docId userId phoneNumber message intent existingLead
          qualifiedLeadDocRef totalMessages isQualified leadPriority autoReply
          curName curEmail faults releaseFault now st ps).store docId = some m' ∧
        m'.processing = false ∧ m'.processed = true) := by
  rcases finishLead_raw docId userId phoneNumber message intent existingLead
      qualifiedLeadDocRef totalMessages isQualified leadPriority autoReply
      curName curEmail faults releaseFault now st ps with
    ⟨ho, hs⟩ | ⟨ho, hs⟩ | ⟨hrf2, ho, hs⟩
  · refine ⟨Or.inl ho, fun hco => absurd (ho.symm.trans hco) (by decide), fun _ => ?_⟩
    exact ⟨{ m1 with
        processed := true,
        isLead := some true,
        isQualified := some isQualified,
        priority := some leadPriority,
        autoReplyText := some autoReply,
        messageCount := some totalMessages,
        processing := false },
      by rw [hs, hm1]; rfl, rfl, rfl⟩
  · refine ⟨Or.inr ho, fun _ => ?_, fun hco => absurd (ho.symm.trans hco) (by decide)⟩
    exact ⟨{ m1 with processing := false }, by rw [hs, hm1]; rfl, rfl, rfl⟩
  · rw [hrf] at hrf2; cases hrf2

set_option maxHeartbeats 1000000 in
/-- With the claim update succeeding and the release update healthy, every
run of the processor — under an arbitrary store-fault pattern and arbitrary
generation behaviour — either completes (and then the processed raw message
ends with `processed = true, processing = false`) or catches the thrown store
error at the processor boundary and releases the claim, leaving `processed`
exactly as it was before the attempt. -/
theorem processMessage_release_on_fault (docId : String) (message : RawMsg)
    (apiKey : String)
    (cO : Nat → HttpResult Classification) (qO : Nat → HttpResult Qualification)
    (eO : Nat → HttpResult Extraction) (rO : HttpResult String)
    (faults : Nat → Bool) (releaseFault : Bool) (now : Nat) (st0 : Store)
    (m0 : RawMsg)
    (hm : findRaw st0 docId = some m0)
    (hp : message.processing = false) (h0 : faults 0 = false)
    (hrf : releaseFault = false) :
    ((processMessage docId message apiKey cO qO eO rO faults releaseFault now
        st0).outcome = Outcome.completed ∨
      (processMessage docId message apiKey cO qO eO rO faults releaseFault now
        st0).outcome = Outcome.caught) ∧
    ((processMessage docId message apiKey cO qO eO rO faults releaseFault now
        st0).outcome = Outcome.caught →
      ∃ m', findRaw (processMessage docId message apiKey cO qO eO rO faults
          releaseFault now st0).store docId = some m' ∧
        m'.processing = false ∧ m'.processed = m0.processed) ∧
    ((processMessage docId message apiKey cO qO eO rO faults releaseFault now
        st0).outcome = Outcome.completed →
      ∃ m', findRaw (processMessage docId message apiKey cO qO eO rO faults
          releaseFault now st0).store docId = some m' ∧
        m'.processing = false ∧ m'.processed = true) := by
  unfold processMessage
  rw [if_neg (by simp [hp])]
  rw [if_neg (by simp [h0])]
  dsimp only
  have hm1 : findRaw (rawUpdate st0 docId (fun d => { d with processing := true }))
      docId = some { m0 with processing := true } := by
    rw [findRaw_rawUpdate, hm]; rfl
  by_cases hc : (classifyMessage message.body apiKey cO).1.isLead = true
  · rw [if_pos hc]
    by_cases h1 : faults 1 = true
    · rw [if_pos h1]
      exact catchRelease_spec _ _ _ _ { m0 with processing := true } hm1 hrf
    · rw [if_neg h1]
      by_cases h2 : faults 2 = true
      · rw [if_pos h2]
        exact catchRelease_spec _ _ _ _ { m0 with processing := true } hm1 hrf
      · rw [if_neg h2]
        exact finishLead_release_on_fault _ _ _ _ _ _ _ _ _ _ _ _ _ _ _ _ _ _
          { m0 with processing := true } hm1 hrf
  · rw [if_neg hc]
    by_cases h5 : faults 5 = true
    · rw [if_pos h5]
      exact catchRelease_spec _ _ _ _ { m0 with processing := true } hm1 hrf
    · rw [if_neg h5]
      refine ⟨Or.inl rfl, ?_, fun _ => ?_⟩
      · intro hco
        cases hco
      · exact ⟨{ m0 with
            processed := true,
            processing := false },
          by rw [findRaw_rawUpdate, hm1]; rfl, rfl, rfl⟩

end IndexJs

namespace Part0

open Pipeline

/-- Lookup after a per-document update of the decrypting variant's store. -/
theorem findRawE_rawUpdateE (st : StoreE) (docId : String) (f : RawMsgE → RawMsgE) :
    findRawE (rawUpdateE st docId f) docId = (findRawE st docId).map f := by
  obtain ⟨raw, leads, qleads⟩ := st
  simp only [findRawE, rawUpdateE]
  induction raw with
  | nil => rfl
  | cons x rest ih =>
    by_cases h : x.1 == docId
    · simp [List.find?, h]
    · simpa [List.find?, h] using ih

/-- The decrypting variant's catch block: with a healthy release update it
reports `caught` and persists `processing := false` on the processed raw
message, touching nothing else on it. -/
theorem catchReleaseE_release (docId : String) (releaseFault : Bool) (st : StoreE)
    (tr : List Ev) (mx : RawMsgE) (hmx : findRawE st docId = some mx)
    (hrf : releaseFault = false) :
    (catchReleaseE docId releaseFault st tr).outcome = OutcomeE.caught ∧
    findRawE (catchReleaseE docId releaseFault st tr).store docId =
      some { mx with processing := false } := by
  unfold catchReleaseE
  rw [if_neg (by simp [hrf])]
  exact ⟨rfl, by rw [findRawE_rawUpdateE, hmx]; rfl⟩


/-- Release spec when the catch runs on a store whose raw message was just
updated: the caught run still holds some released raw message. -/
theorem catchReleaseE_after_update (docId : String) (rf : Bool) (st : StoreE)
    (f : RawMsgE → RawMsgE) (tr : List Ev) (mx : RawMsgE)
    (hmx : findRawE st docId = some mx) (hrf : rf = false) :
    (catchReleaseE docId rf (rawUpdateE st docId f) tr).outcome = OutcomeE.caught ∧
    ∃ m', findRawE (catchReleaseE docId rf (rawUpdateE st docId f) tr).store docId
        = some m' ∧ m'.processing = false := by
  obtain ⟨ho, hfind⟩ := catchReleaseE_release docId rf (rawUpdateE st docId f) tr
    (f mx) (by rw [findRawE_rawUpdateE, hmx]; rfl) hrf
  exact ⟨ho, ⟨{ f mx with processing := false }, hfind, rfl⟩⟩

set_option maxHeartbeats 1000000 in
/-- In the decrypting variant, with the three pre-try store operations (claim
update, decryption-failure update, thread count query) healthy and the
release update healthy, every exception thrown inside the try block is caught
and releases the claim: a run ends completed, terminally after a decryption
failure, or caught — and a caught run persists `processing := false`, with
`processed` untouched whenever the fault hit before the raw-message update
(the general-lead write, fault slot 5, runs after the message is already
marked processed). -/
theorem processMessageE_release (docId : String) (message : RawMsgE)
    (apiKey : String) (dec : String → String → String → Option String)
    (faults : Nat → Bool) (releaseFault : Bool) (now : Nat) (st0 : StoreE)
    (m0 : RawMsgE)
    (hm : findRawE st0 docId = some m0)
    (hp : message.processing = false) (h0 : faults 0 = false)
    (h1 : faults 1 = false) (h2 : faults 2 = false)
    (hrf : releaseFault = false) :
    ((processMessage docId message apiKey dec faults releaseFault now
        st0).outcome = OutcomeE.completed ∨
      (processMessage docId message apiKey dec faults releaseFault now
        st0).outcome = OutcomeE.decryptDone ∨
      (processMessage docId message apiKey dec faults releaseFault now
        st0).outcome = OutcomeE.caught) ∧
    ((processMessage docId message apiKey dec faults releaseFault now
        st0).outcome = OutcomeE.caught →
      ∃ m', findRawE (processMessage docId message apiKey dec faults releaseFault
          now st0).store docId = some m' ∧
        m'.processing = false ∧
        (faults 5 = false → m'.processed = m0.processed)) := by
  unfold processMessage
  rw [if_neg (by simp [hp])]
  rw [if_neg (by simp [h0])]
  dsimp only
  have hm1 : findRawE (rawUpdateE st0 docId (fun d => { d with processing := true }))
      docId = some { m0 with processing := true } := by
    rw [findRawE_rawUpdateE, hm]; rfl
  by_cases hd : (!truthyS (decrypt message.encryptedBody message.iv message.authTag
      dec)) = true
  · rw [if_pos hd]
    rw [if_neg (by simp [h1])]
    exact ⟨Or.inr (Or.inl rfl), fun hco => by cases hco⟩
  · rw [if_neg hd]
    rw [if_neg (by simp [h2])]
    by_cases h3 : faults 3 = true
    · rw [if_pos h3]
      obtain ⟨ho, hfind⟩ := catchReleaseE_release _ _ _ _
        { m0 with processing := true } hm1 hrf
      exact ⟨Or.inr (Or.inr ho),
        fun _ => ⟨{ { m0 with processing := true } with processing := false },
          hfind, rfl, fun _ => rfl⟩⟩
    · rw [if_neg h3]
      by_cases hl : (generateAIResponse apiKey
          ((decrypt message.encryptedBody message.iv message.authTag
            dec).getD emptyStr)).classification.isLead = true
      · rw [if_pos hl]
        by_cases h4 : faults 4 = true
        · rw [if_pos h4]
          obtain ⟨ho, hfind⟩ := catchReleaseE_release _ _ _ _
            { m0 with processing := true } hm1 hrf
          exact ⟨Or.inr (Or.inr ho),
            fun _ => ⟨{ { m0 with processing := true } with processing := false },
              hfind, rfl, fun _ => rfl⟩⟩
        · rw [if_neg h4]
          by_cases h5 : faults 5 = true
          · rw [if_pos h5]
            refine ⟨Or.inr (Or.inr (catchReleaseE_after_update docId releaseFault _ _ _
                { m0 with processing := true } hm1 hrf).1), fun _ => ?_⟩
            obtain ⟨m', hfind, hproc⟩ := (catchReleaseE_after_update docId releaseFault
              _ _ _ { m0 with processing := true } hm1 hrf).2
            exact ⟨m', hfind, hproc, fun hf5 => by rw [hf5] at h5; cases h5⟩
          · rw [if_neg h5]
            exact ⟨Or.inl rfl, fun hco => by cases hco⟩
      · rw [if_neg hl]
        by_cases h4 : faults 4 = true
        · rw [if_pos h4]
          obtain ⟨ho, hfind⟩ := catchReleaseE_release _ _ _ _
            { m0 with processing := true } hm1 hrf
          exact ⟨Or.inr (Or.inr ho),
            fun _ => ⟨{ { m0 with processing := true } with processing := false },
              hfind, rfl, fun _ => rfl⟩⟩
        · rw [if_neg h4]
          exact ⟨Or.inl rfl, fun hco => by cases hco⟩

end Part0

namespace Part0

open Pipeline

/-- C3: for every raw message whose body fails to decrypt — the AEAD oracle
rejecting (auth-tag mismatch, malformed hex) or an empty/missing field, both
of which make `decrypt` resolve falsy — the decrypting variant persists
`processed = true, processing = false` with the decryption-error auto-reply
on that message, writes nothing to the `leads` or `qualified_leads`
collections, terminates with the terminal `decryptDone` outcome, and the
persisted document is no longer eligible for the poll query, so the message
is never retried. -/
theorem c3_decrypt_failure_terminal (docId : String) (message : RawMsgE)
    (apiKey : String) (dec : String → String → String → Option String)
    (faults : Nat → Bool) (releaseFault : Bool) (now : Nat) (st0 : StoreE)
    (m0 : RawMsgE)
    (hm : findRawE st0 docId = some m0)
    (hp : message.processing = false) (h0 : faults 0 = false)
    (h1 : faults 1 = false)
    (hd : truthyS (decrypt message.encryptedBody message.iv message.authTag dec)
      = false) :
    (processMessage docId message apiKey dec faults releaseFault now st0).outcome
      = OutcomeE.decryptDone ∧
    findRawE (processMessage docId message apiKey dec faults releaseFault now
        st0).store docId =
      some { m0 with
        processed := true,
        processing := false,
        autoReplyText := some decryptErrText } ∧
    (processMessage docId message apiKey dec faults releaseFault now
      st0).store.leads = st0.leads ∧
    (processMessage docId message apiKey dec faults releaseFault now
      st0).store.qleads = st0.qleads ∧
    pollEligibleE { m0 with
      processed := true,
      processing := false,
      autoReplyText := some decryptErrText } = false := by
  unfold processMessage
  rw [if_neg (by simp [hp])]
  rw [if_neg (by simp [h0])]
  dsimp only
  rw [if_pos (by simp [hd])]
  rw [if_neg (by simp [h1])]
  refine ⟨rfl, ?_, rfl, rfl, rfl⟩
  rw [findRawE_rawUpdateE, findRawE_rawUpdateE, hm]
  rfl

/-- Witness for `c3_decrypt_failure_terminal`: a concrete message whose
auth tag the AEAD oracle rejects. -/
theorem c3_decrypt_failure_terminal_witness :
    (processMessage eId eMsg wKey decFail noFaults false 0 eStore).outcome
      = OutcomeE.decryptDone ∧
    findRawE (processMessage eId eMsg wKey decFail noFaults false 0
        eStore).store eId =
      some { eMsg with
        processed := true,
        processing := false,
        autoReplyText := some decryptErrText } ∧
    (processMessage eId eMsg wKey decFail noFaults false 0
      eStore).store.leads = eStore.leads ∧
    (processMessage eId eMsg wKey decFail noFaults false 0
      eStore).store.qleads = eStore.qleads ∧
    pollEligibleE { eMsg with
      processed := true,
      processing := false,
      autoReplyText := some decryptErrText } = false :=
  c3_decrypt_failure_terminal eId eMsg wKey decFail noFaults false 0 eStore eMsg
    rfl rfl rfl rfl rfl

/-- C2, counterexample: the claim says EVERY exception after Claim is caught
at the processor boundary and persists `processing = false` while leaving
`processed` false.  In the decrypting variant, (i) the thread message-count
query runs after the claim but before the `try` block (fault slot 2): a
store error thrown there escapes uncaught and the message is left with
`processing = true, processed = false` — permanently locked, never
re-claimable; and (ii) the general-lead write (fault slot 5) runs after the
raw message was already updated with `processed = true`, so the caught run
releases the claim but leaves `processed = true`, not false. -/
theorem c2_escape_counterexample :
    ((processMessage eId eMsg wKey decOk (fun i => i == 2) false 0
        eStore).outcome = OutcomeE.escaped ∧
      (findRawE (processMessage eId eMsg wKey decOk (fun i => i == 2) false 0
          eStore).store eId).map (fun m => (m.processing, m.processed)) =
        some (true, false)) ∧
    ((processMessage eId eMsg wKey decOk (fun i => i == 5) false 0
        eStore).outcome = OutcomeE.caught ∧
      (findRawE (processMessage eId eMsg wKey decOk (fun i => i == 5) false 0
          eStore).store eId).map (fun m => (m.processing, m.processed)) =
        some (false, true)) := by
  decide

/-- C2 (amended): exceptions raised INSIDE each variant's `try` block are
caught at the processor boundary and release the claim, and the worker does
not crash.  In index.js every post-claim step sits inside the `try`, so a
caught run persists `processing = false` with `processed` exactly as before
the attempt (false for a fresh message), making the message re-claimable; a
completed run persists `processed = true, processing = false`.  In the
decrypting variant the same catch-and-release holds for exceptions inside
its `try`, but with two deviations (see the counterexample): the pre-`try`
count query escapes uncaught without releasing, and a caught general-lead
write (slot 5) happens after the message was already marked
`processed = true`. -/
theorem c2_catch_releases_claim :
    (∀ (docId : String) (message : IndexJs.RawMsg) (apiKey : String)
        (cO : Nat → HttpResult Classification)
        (qO : Nat → HttpResult Qualification)
        (eO : Nat → HttpResult Extraction) (rO : HttpResult String)
        (faults : Nat → Bool) (releaseFault : Bool) (now : Nat)
        (st0 : IndexJs.Store) (m0 : IndexJs.RawMsg),
      IndexJs.findRaw st0 docId = some m0 →
      message.processing = false → faults 0 = false → releaseFault = false →
      ((IndexJs.processMessage docId message apiKey cO qO eO rO faults
          releaseFault now st0).outcome = IndexJs.Outcome.completed ∨
        (IndexJs.processMessage docId message apiKey cO qO eO rO faults
          releaseFault now st0).outcome = IndexJs.Outcome.caught) ∧
      ((IndexJs.processMessage docId message apiKey cO qO eO rO faults
          releaseFault now st0).outcome = IndexJs.Outcome.caught →
        ∃ m', IndexJs.findRaw (IndexJs.processMessage docId message apiKey cO qO
            eO rO faults releaseFault now st0).store docId = some m' ∧
          m'.processing = false ∧ m'.processed = m0.processed) ∧
      ((IndexJs.processMessage docId message apiKey cO qO eO rO faults
          releaseFault now st0).outcome = IndexJs.Outcome.completed →
        ∃ m', IndexJs.findRaw (IndexJs.processMessage docId message apiKey cO qO
            eO rO faults releaseFault now st0).store docId = some m' ∧
          m'.processing = false ∧ m'.processed = true)) ∧
    (∀ (docId : String) (message : RawMsgE) (apiKey : String)
        (dec : String → String → String → Option String)
        (faults : Nat → Bool) (releaseFault : Bool) (now : Nat) (st0 : StoreE)
        (m0 : RawMsgE),
      findRawE st0 docId = some m0 →
      message.processing = false → faults 0 = false → faults 1 = false →
      faults 2 = false → releaseFault = false →
      ((processMessage docId message apiKey dec faults releaseFault now
          st0).outcome = OutcomeE.completed ∨
        (processMessage docId message apiKey dec faults releaseFault now
          st0).outcome = OutcomeE.decryptDone ∨
        (processMessage docId message apiKey dec faults releaseFault now
          st0).outcome = OutcomeE.caught) ∧
      ((processMessage docId message apiKey dec faults releaseFault now
          st0).outcome = OutcomeE.caught →
        ∃ m', findRawE (processMessage docId message apiKey dec faults
            releaseFault now st0).store docId = some m' ∧
          m'.processing = false ∧
          (faults 5 = false → m'.processed = m0.processed))) := by
  constructor
  · intro docId message apiKey cO qO eO rO faults releaseFault now st0 m0
      hm hp h0 hrf
    exact IndexJs.processMessage_release_on_fault docId message apiKey cO qO eO
      rO faults releaseFault now st0 m0 hm hp h0 hrf
  · intro docId message apiKey dec faults releaseFault now st0 m0
      hm hp h0 h1 h2 hrf
    exact processMessageE_release docId message apiKey dec faults releaseFault
      now st0 m0 hm hp h0 h1 h2 hrf

/-- Witness for `c2_catch_releases_claim`: a thrown qualified-leads query in
index.js (fault slot 2, inside its try), and a thrown leads query in the
decrypting variant (fault slot 3, inside its try). -/
theorem c2_catch_releases_claim_witness :
    (((IndexJs.processMessage IndexJs.wId IndexJs.wMsg wKey wFailC wFailQ wFailE
        HttpResult.fail (fun i => i == 2) false 0 IndexJs.wStore).outcome =
          IndexJs.Outcome.completed ∨
      (IndexJs.processMessage IndexJs.wId IndexJs.wMsg wKey wFailC wFailQ wFailE
        HttpResult.fail (fun i => i == 2) false 0 IndexJs.wStore).outcome =
          IndexJs.Outcome.caught)) ∧
    ((processMessage eId eMsg wKey decOk (fun i => i == 3) false 0
        eStore).outcome = OutcomeE.completed ∨
      (processMessage eId eMsg wKey decOk (fun i => i == 3) false 0
        eStore).outcome = OutcomeE.decryptDone ∨
      (processMessage eId eMsg wKey decOk (fun i => i == 3) false 0
        eStore).outcome = OutcomeE.caught) :=
  ⟨(c2_catch_releases_claim.1 IndexJs.wId IndexJs.wMsg wKey wFailC wFailQ wFailE
      HttpResult.fail (fun i => i == 2) false 0 IndexJs.wStore IndexJs.wMsg
      rfl rfl rfl rfl).1,
   (c2_catch_releases_claim.2 eId eMsg wKey decOk (fun i => i == 3) false 0
      eStore eMsg rfl rfl rfl rfl rfl rfl).1⟩

end Part0

namespace IndexJs

open Pipeline

/-- The raw message seen through the catch-release step keeps its
`isQualified` field. -/
theorem catchRelease_isQualified (docId : String) (releaseFault : Bool)
    (st : Store) (ps : PStats) (mx : RawMsg) (hmx : findRaw st docId = some mx) :
    ∀ m', findRaw (catchRelease docId releaseFault st ps).store docId = some m' →
      m'.isQualified = mx.isQualified := by
  unfold catchRelease
  split
  · intro m' hm'
    dsimp only at hm'
    rw [hmx] at hm'
    injection hm' with h
    rw [← h]
  · intro m' hm'
    dsimp only at hm'
    rw [findRaw_rawUpdate, hmx] at hm'
    simp only [Option.map_some'] at hm'
    injection hm' with h
    rw [← h]

/-- A persistence phase entered with `isQualified = true` can only leave the
raw message's `isQualified` field untouched or persist it `true` — it never
writes `false`. -/
theorem finishLead_isQualified_sticky (docId userId phoneNumber : String)
    (message : RawMsg) (intent : String) (existingLead : Option (Nat × LeadDoc))
    (qualifiedLeadDocRef : Option Nat) (totalMessages : Nat)
    (leadPriority autoReply : String) (curName curEmail : Option String)
    (faults : Nat → Bool) (releaseFault : Bool) (now : Nat)
    (st : Store) (ps : PStats) (mx : RawMsg)
    (hmx : findRaw st docId = some mx) :
    ∀ m', findRaw (finishLead docId userId phoneNumber message intent existingLead
        qualifiedLeadDocRef totalMessages true leadPriority autoReply
        curName curEmail faults releaseFault now st ps).store docId = some m' →
      m'.isQualified = mx.isQualified ∨ m'.isQualified = some true := by
  intro m' hm'
  rcases finishLead_raw docId userId phoneNumber message intent existingLead
      qualifiedLeadDocRef totalMessages true leadPriority autoReply
      curName curEmail faults releaseFault now st ps with
    ⟨_, hr⟩ | ⟨_, hr⟩ | ⟨_, _, hr⟩
  · rw [hr, hmx] at hm'
    simp only [Option.map_some'] at hm'
    injection hm' with h
    exact Or.inr (by rw [← h])
  · rw [hr, hmx] at hm'
    simp only [Option.map_some'] at hm'
    injection hm' with h
    exact Or.inl (by rw [← h])
  · rw [hr, hmx] at hm'
    injection hm' with h
    exact Or.inl (by rw [← h])

/-- With no injected store faults the persistence phase always completes. -/
theorem finishLead_noFaults_completed (docId userId phoneNumber : String)
    (message : RawMsg) (intent : String) (existingLead : Option (Nat × LeadDoc))
    (qualifiedLeadDocRef : Option Nat) (totalMessages : Nat) (isQualified : Bool)
    (leadPriority autoReply : String) (curName curEmail : Option String)
    (faults : Nat → Bool) (releaseFault : Bool) (now : Nat)
    (st : Store) (ps : PStats) (hf : ∀ i, faults i = false) :
    (finishLead docId userId phoneNumber message intent existingLead
      qualifiedLeadDocRef totalMessages isQualified leadPriority autoReply
      curName curEmail faults releaseFault now st ps).outcome =
        Outcome.completed := by
  unfold finishLead
  rw [if_neg (by simp [hf 3])]
  rw [if_neg (by simp [hf 4])]
  rw [if_neg (by simp [hf 5])]

/-- With no faults, a qualified message holding a document reference applies
exactly the four-field merge to the found qualified-lead document. -/
theorem finishLead_noFaults_qleads_some (docId userId phoneNumber : String)
    (message : RawMsg) (intent : String) (existingLead : Option (Nat × LeadDoc))
    (qi : Nat) (totalMessages : Nat)
    (leadPriority autoReply : String) (curName curEmail : Option String)
    (faults : Nat → Bool) (releaseFault : Bool) (now : Nat)
    (st : Store) (ps : PStats) (hf : ∀ i, faults i = false) :
    (finishLead docId userId phoneNumber message intent existingLead
      (some qi) totalMessages true leadPriority autoReply
      curName curEmail faults releaseFault now st ps).store.qleads =
    listUpdateAt st.qleads qi (fun q =>
      { q with
        name := curName,
        email := curEmail,
        messageCount := totalMessages,
        lastActive := some now }) := by
  unfold finishLead
  rw [if_neg (by simp [hf 3])]
  rw [if_neg (by simp [hf 4])]
  rw [if_neg (by simp [hf 5])]
  dsimp only
  rw [rawUpdate_qleads]
  rcases existingLead with _ | ⟨li, l0⟩ <;> rfl

/-- With no faults the persistence phase ends with the final raw-message
update applied on top of the store it received. -/
theorem finishLead_noFaults_raw (docId userId phoneNumber : String)
    (message : RawMsg) (intent : String) (existingLead : Option (Nat × LeadDoc))
    (qualifiedLeadDocRef : Option Nat) (totalMessages : Nat) (isQualified : Bool)
    (leadPriority autoReply : String) (curName curEmail : Option String)
    (faults : Nat → Bool) (releaseFault : Bool) (now : Nat)
    (st : Store) (ps : PStats) (hf : ∀ i, faults i = false) :
    findRaw (finishLead docId userId phoneNumber message intent existingLead
      qualifiedLeadDocRef totalMessages isQualified leadPriority autoReply
      curName curEmail faults releaseFault now st ps).store docId =
    (findRaw st docId).map (fun m =>
      { m with
        processed := true,
        isLead := some true,
        isQualified := some isQualified,
        priority := some leadPriority,
        autoReplyText := some autoReply,
        messageCount := some totalMessages,
        processing := false }) := by
  unfold finishLead
  rw [if_neg (by simp [hf 3])]
  rw [if_neg (by simp [hf 4])]
  rw [if_neg (by simp [hf 5])]
  dsimp only
  rw [findRaw_rawUpdate]
  congr 1
  rcases isQualified with _ | _ <;>
    rcases qualifiedLeadDocRef with _ | qi <;>
      rcases existingLead with _ | ⟨li, l0⟩ <;> rfl

/-- The persistence phase reports the invocation flags it was handed. -/
theorem finishLead_stats_inv (docId userId phoneNumber : String)
    (message : RawMsg) (intent : String) (existingLead : Option (Nat × LeadDoc))
    (qualifiedLeadDocRef : Option Nat) (totalMessages : Nat) (isQualified : Bool)
    (leadPriority autoReply : String) (curName curEmail : Option String)
    (faults : Nat → Bool) (releaseFault : Bool) (now : Nat)
    (st : Store) (ps : PStats) :
    (finishLead docId userId phoneNumber message intent existingLead
      qualifiedLeadDocRef totalMessages isQualified leadPriority autoReply
      curName curEmail faults releaseFault now st ps).stats.qualifyInvoked =
        ps.qualifyInvoked ∧
    (finishLead docId userId phoneNumber message intent existingLead
      qualifiedLeadDocRef totalMessages isQualified leadPriority autoReply
      curName curEmail faults releaseFault now st ps).stats.extractInvoked =
        ps.extractInvoked := by
  unfold finishLead catchRelease
  dsimp only
  repeat' split
  all_goals exact ⟨rfl, rfl⟩

end IndexJs

namespace IndexJs

open Pipeline

set_option maxHeartbeats 1000000 in
/-- The fault-free run on a message whose sender already has a QualifiedLead
document `(qi, q)`: the processor completes, the Qualify call-site is NOT
invoked, the Extract call-site is invoked exactly when the stored name or
email is still unknown, the qualified-lead document receives only the
four-field merge (never erasing a known name or email), and the raw message
is persisted with `isQualified = true` and the stored priority (defaulting to
High when the stored priority is null or empty). -/
theorem processMessage_qualified_existing (docId : String) (message : RawMsg)
    (apiKey : String) (cO : Nat → HttpResult Classification)
    (qO : Nat → HttpResult Qualification) (eO : Nat → HttpResult Extraction)
    (rO : HttpResult String) (faults : Nat → Bool) (releaseFault : Bool)
    (now : Nat) (st0 : Store) (m0 : RawMsg) (qi : Nat) (q : QLDoc)
    (hm : findRaw st0 docId = some m0)
    (hp : message.processing = false)
    (hf : ∀ i, faults i = false)
    (hc : (classifyMessage message.body apiKey cO).1.isLead = true)
    (hq : findQL st0.qleads (jsOrStr message.userId unknownUser) = some (qi, q)) :
    (processMessage docId message apiKey cO qO eO rO faults releaseFault now
      st0).outcome = Outcome.completed ∧
    (processMessage docId message apiKey cO qO eO rO faults releaseFault now
      st0).stats.qualifyInvoked = false ∧
    (processMessage docId message apiKey cO qO eO rO faults releaseFault now
      st0).stats.extractInvoked =
        (!(truthyS q.name) || !(truthyS q.email)) ∧
    (∃ cn ce tm,
      (processMessage docId message apiKey cO qO eO rO faults releaseFault now
        st0).store.qleads = listUpdateAt st0.qleads qi (fun ql =>
          { ql with
            name := cn,
            email := ce,
            messageCount := tm,
            lastActive := some now }) ∧
      (truthyS q.name = true → cn = q.name) ∧
      (truthyS q.email = true → ce = q.email)) ∧
    (∃ m', findRaw (processMessage docId message apiKey cO qO eO rO faults
        releaseFault now st0).store docId = some m' ∧
      m'.isQualified = some true ∧
      m'.priority = some (jsOrStr q.priority highPriority) ∧
      m'.processed = true ∧ m'.processing = false) := by
  unfold processMessage
  rw [if_neg (by simp [hp])]
  rw [if_neg (by simp [hf 0])]
  dsimp only
  rw [if_pos hc]
  rw [if_neg (by simp [hf 1])]
  rw [if_neg (by simp [hf 2])]
  rw [rawUpdate_qleads, hq]
  dsimp only
  refine ⟨?_, ?_, ?_, ?_, ?_⟩
  · exact finishLead_noFaults_completed _ _ _ _ _ _ _ _ _ _ _ _ _ _ _ _ _ _ hf
  · exact (finishLead_stats_inv _ _ _ _ _ _ _ _ _ _ _ _ _ _ _ _ _ _).1
  · rw [(finishLead_stats_inv _ _ _ _ _ _ _ _ _ _ _ _ _ _ _ _ _ _).2]
    dsimp only
    by_cases he : (!(truthyS q.name) || !(truthyS q.email)) = true
    · rw [if_pos (by simp [he])]
      exact he.symm
    · rw [if_neg (by simp [he])]
      simp only [Bool.not_eq_true] at he
      exact he.symm
  · refine ⟨?cn, ?ce, ?tm, ?h1, ?h2, ?h3⟩
    case h1 =>
      exact finishLead_noFaults_qleads_some _ _ _ _ _ _ _ _ _ _ _ _ _ _ _ _ _ hf
    case h2 =>
      intro ht
      by_cases he : (!(truthyS q.name) || !(truthyS q.email)) = true
      · rw [if_pos (by simp [he])]
        dsimp only
        simp [jsOrOpt, ht]
      · rw [if_neg (by simp [he])]
    case h3 =>
      intro ht
      by_cases he : (!(truthyS q.name) || !(truthyS q.email)) = true
      · rw [if_pos (by simp [he])]
        dsimp only
        simp [jsOrOpt, ht]
      · rw [if_neg (by simp [he])]
  · rw [finishLead_noFaults_raw _ _ _ _ _ _ _ _ _ _ _ _ _ _ _ _ _ _ hf]
    rw [show findRaw (rawUpdate st0 docId
        (fun d => { d with processing := true })) docId =
      some { m0 with processing := true } from by rw [findRaw_rawUpdate, hm]; rfl]
    simp only [Option.map_some']
    exact ⟨_, rfl, rfl, rfl, rfl, rfl⟩

end IndexJs

namespace IndexJs

open Pipeline

set_option maxHeartbeats 1000000 in
/-- Monotonic qualification at the raw-message level: whenever a
qualified-lead document already exists for the sender, a processing attempt —
under ANY store-fault pattern, release behaviour and generation behaviour —
either leaves the raw message's `isQualified` field untouched or persists it
`true`; it can never persist `false`. -/
theorem processMessage_qualified_sticky (docId : String) (message : RawMsg)
    (apiKey : String) (cO : Nat → HttpResult Classification)
    (qO : Nat → HttpResult Qualification) (eO : Nat → HttpResult Extraction)
    (rO : HttpResult String) (faults : Nat → Bool) (releaseFault : Bool)
    (now : Nat) (st0 : Store) (m0 : RawMsg)
    (hm : findRaw st0 docId = some m0)
    (hq : qlExists st0 (jsOrStr message.userId unknownUser) = true) :
    ∀ m', findRaw (processMessage docId message apiKey cO qO eO rO faults
        releaseFault now st0).store docId = some m' →
      m'.isQualified = m0.isQualified ∨ m'.isQualified = some true := by
  obtain ⟨p, hql⟩ : ∃ p, findQL st0.qleads (jsOrStr message.userId unknownUser)
      = some p := by
    unfold qlExists at hq
    exact Option.isSome_iff_exists.mp hq
  obtain ⟨qi, qd⟩ := p
  unfold processMessage
  dsimp only
  by_cases hp : message.processing = true
  · rw [if_pos hp]
    intro m' hm'
    rw [hm] at hm'
    injection hm' with h
    exact Or.inl (by rw [← h])
  · rw [if_neg hp]
    by_cases h0 : faults 0 = true
    · rw [if_pos h0]
      intro m' hm'
      rw [hm] at hm'
      injection hm' with h
      exact Or.inl (by rw [← h])
    · rw [if_neg h0]
      have hm1 : findRaw (rawUpdate st0 docId
          (fun d => { d with processing := true })) docId =
          some { m0 with processing := true } := by
        rw [findRaw_rawUpdate, hm]; rfl
      by_cases hc : (classifyMessage message.body apiKey cO).1.isLead = true
      · rw [if_pos hc]
        by_cases h1 : faults 1 = true
        · rw [if_pos h1]
          exact fun m' hm' => Or.inl (catchRelease_isQualified _ _ _ _
            { m0 with processing := true } hm1 m' hm')
        · rw [if_neg h1]
          by_cases h2 : faults 2 = true
          · rw [if_pos h2]
            exact fun m' hm' => Or.inl (catchRelease_isQualified _ _ _ _
              { m0 with processing := true } hm1 m' hm')
          · rw [if_neg h2]
            rw [rawUpdate_qleads, hql]
            dsimp only
            exact finishLead_isQualified_sticky _ _ _ _ _ _ _ _ _ _ _ _ _ _ _ _ _
              { m0 with processing := true } hm1
      · rw [if_neg hc]
        by_cases h5 : faults 5 = true
        · rw [if_pos h5]
          exact fun m' hm' => Or.inl (catchRelease_isQualified _ _ _ _
            { m0 with processing := true } hm1 m' hm')
        · rw [if_neg h5]
          intro m' hm'
          rw [findRaw_rawUpdate, hm1] at hm'
          simp only [Option.map_some'] at hm'
          injection hm' with h
          exact Or.inl (by rw [← h])

end IndexJs

namespace IndexJs

open Pipeline

/-- C4: qualification is sticky.  (a) In a fault-free run on a message whose
sender already has a QualifiedLead document, the processor completes without
invoking the Qualify call-site and persists `isQualified = true` on the raw
message together with the stored priority (`q.priority || "High"`).  (b) Under
ANY store faults, release behaviour and generation behaviour, once a
QualifiedLead document exists for the sender the attempt can only leave the
raw message's `isQualified` untouched or persist it `true` — no later message
from that sender can persist `isQualified = false`. -/
theorem c4_sticky_qualification :
    (∀ (docId : String) (message : RawMsg) (apiKey : String)
        (cO : Nat → HttpResult Classification)
        (qO : Nat → HttpResult Qualification) (eO : Nat → HttpResult Extraction)
        (rO : HttpResult String) (faults : Nat → Bool) (releaseFault : Bool)
        (now : Nat) (st0 : Store) (m0 : RawMsg) (qi : Nat) (q : QLDoc),
      findRaw st0 docId = some m0 →
      message.processing = false →
      (∀ i, faults i = false) →
      (classifyMessage message.body apiKey cO).1.isLead = true →
      findQL st0.qleads (jsOrStr message.userId unknownUser) = some (qi, q) →
      (processMessage docId message apiKey cO qO eO rO faults releaseFault now
        st0).outcome = Outcome.completed ∧
      (processMessage docId message apiKey cO qO eO rO faults releaseFault now
        st0).stats.qualifyInvoked = false ∧
      (∃ m', findRaw (processMessage docId message apiKey cO qO eO rO faults
          releaseFault now st0).store docId = some m' ∧
        m'.isQualified = some true ∧
        m'.priority = some (jsOrStr q.priority highPriority) ∧
        m'.processed = true ∧ m'.processing = false)) ∧
    (∀ (docId : String) (message : RawMsg) (apiKey : String)
        (cO : Nat → HttpResult Classification)
        (qO : Nat → HttpResult Qualification) (eO : Nat → HttpResult Extraction)
        (rO : HttpResult String) (faults : Nat → Bool) (releaseFault : Bool)
        (now : Nat) (st0 : Store) (m0 : RawMsg),
      findRaw st0 docId = some m0 →
      qlExists st0 (jsOrStr message.userId unknownUser) = true →
      ∀ m', findRaw (processMessage docId message apiKey cO qO eO rO faults
          releaseFault now st0).store docId = some m' →
        m'.isQualified = m0.isQualified ∨ m'.isQualified = some true) := by
  constructor
  · intro docId message apiKey cO qO eO rO faults releaseFault now st0 m0 qi q
      hm hp hf hc hq
    obtain ⟨h1, h2, _, _, h5⟩ := processMessage_qualified_existing docId message
      apiKey cO qO eO rO faults releaseFault now st0 m0 qi q hm hp hf hc hq
    exact ⟨h1, h2, h5⟩
  · intro docId message apiKey cO qO eO rO faults releaseFault now st0 m0 hm hq
    exact processMessage_qualified_sticky docId message apiKey cO qO eO rO faults
      releaseFault now st0 m0 hm hq

/-- Witness for `c4_sticky_qualification`: the sample sender of `wStoreQL`
already holds the qualified-lead document `wQL` with priority High. -/
theorem c4_sticky_qualification_witness :
    ((processMessage wId wMsg wKey wLeadC wOkQ wOkE wOkR noFaults false 0
        wStoreQL).outcome = Outcome.completed ∧
      (processMessage wId wMsg wKey wLeadC wOkQ wOkE wOkR noFaults false 0
        wStoreQL).stats.qualifyInvoked = false ∧
      (∃ m', findRaw (processMessage wId wMsg wKey wLeadC wOkQ wOkE wOkR
          noFaults false 0 wStoreQL).store wId = some m' ∧
        m'.isQualified = some true ∧
        m'.priority = some (jsOrStr wQL.priority highPriority) ∧
        m'.processed = true ∧ m'.processing = false)) ∧
    (wMsg.isQualified = wMsg.isQualified ∨ wMsg.isQualified = some true) :=
  ⟨c4_sticky_qualification.1 wId wMsg wKey wLeadC wOkQ wOkE wOkR noFaults false 0
      wStoreQL wMsg 0 wQL rfl rfl (fun i => rfl) rfl rfl,
   c4_sticky_qualification.2 wId wMsg wKey wLeadC wOkQ wOkE wOkR
      (fun i => i == 2) false 0 wStoreQL wMsg rfl rfl wMsg rfl⟩

end IndexJs

namespace IndexJs

open Pipeline

/-- C9: once a QualifiedLead exists for a sender, its priority is retained,
never degraded.  In a fault-free run on a message whose sender already holds
the qualified-lead document `(qi, q)`: (a) the update applied to that document
touches only `name`, `email`, `messageCount` and `lastActive` — afterwards the
document found for the sender still carries `q`'s priority, userId,
phoneNumber, rawMessageId, intent, autoReplyText and timestamp; (b) when the
stored priority is a non-empty string it is reused verbatim as the raw
message's persisted `priority`. -/
theorem c9_priority_never_degraded (docId : String) (message : RawMsg)
    (apiKey : String) (cO : Nat → HttpResult Classification)
    (qO : Nat → HttpResult Qualification) (eO : Nat → HttpResult Extraction)
    (rO : HttpResult String) (faults : Nat → Bool) (releaseFault : Bool)
    (now : Nat) (st0 : Store) (m0 : RawMsg) (qi : Nat) (q : QLDoc)
    (hm : findRaw st0 docId = some m0)
    (hp : message.processing = false)
    (hf : ∀ i, faults i = false)
    (hc : (classifyMessage message.body apiKey cO).1.isLead = true)
    (hq : findQL st0.qleads (jsOrStr message.userId unknownUser) = some (qi, q)) :
    (∃ q', findQL (processMessage docId message apiKey cO qO eO rO faults
        releaseFault now st0).store.qleads (jsOrStr message.userId unknownUser)
          = some (qi, q') ∧
      q'.priority = q.priority ∧
      q'.userId = q.userId ∧
      q'.phoneNumber = q.phoneNumber ∧
      q'.rawMessageId = q.rawMessageId ∧
      q'.intent = q.intent ∧
      q'.autoReplyText = q.autoReplyText ∧
      q'.timestamp = q.timestamp) ∧
    (∀ pr, q.priority = some pr → (pr == emptyStr) = false →
      ∃ m', findRaw (processMessage docId message apiKey cO qO eO rO faults
          releaseFault now st0).store docId = some m' ∧
        m'.priority = some pr) := by
  obtain ⟨h1, h2, h3, ⟨cn, ce, tm, hql, hcn, hce⟩, m', hm', hiq, hpr, hpd, hpg⟩ :=
    processMessage_qualified_existing docId message apiKey cO qO eO rO faults
      releaseFault now st0 m0 qi q hm hp hf hc hq
  constructor
  · refine ⟨{ q with
        name := cn,
        email := ce,
        messageCount := tm,
        lastActive := some now }, ?_, rfl, rfl, rfl, rfl, rfl, rfl, rfl⟩
    rw [hql]
    rw [findQL_listUpdateAt (jsOrStr message.userId unknownUser)
      (fun ql => { ql with
        name := cn,
        email := ce,
        messageCount := tm,
        lastActive := some now })
      (fun x => rfl) st0.qleads qi]
    rw [hq]
    simp
  · intro pr hqp hne
    refine ⟨m', hm', ?_⟩
    rw [hpr, hqp]
    have hne2 : (pr == "") = false := hne
    simp [jsOrStr, hne2]

/-- Witness for `c9_priority_never_degraded`: the stored priority High of
`wQL` survives the run and is reused on the raw message. -/
theorem c9_priority_never_degraded_witness :
    (∃ q', findQL (processMessage wId wMsg wKey wLeadC wOkQ wOkE wOkR noFaults
        false 0 wStoreQL).store.qleads (jsOrStr wMsg.userId unknownUser)
          = some (0, q') ∧
      q'.priority = wQL.priority ∧
      q'.userId = wQL.userId ∧
      q'.phoneNumber = wQL.phoneNumber ∧
      q'.rawMessageId = wQL.rawMessageId ∧
      q'.intent = wQL.intent ∧
      q'.autoReplyText = wQL.autoReplyText ∧
      q'.timestamp = wQL.timestamp) ∧
    (∃ m', findRaw (processMessage wId wMsg wKey wLeadC wOkQ wOkE wOkR noFaults
        false 0 wStoreQL).store wId = some m' ∧
      m'.priority = some highPriority) :=
  ⟨(c9_priority_never_degraded wId wMsg wKey wLeadC wOkQ wOkE wOkR noFaults
      false 0 wStoreQL wMsg 0 wQL rfl rfl (fun i => rfl) rfl rfl).1,
   (c9_priority_never_degraded wId wMsg wKey wLeadC wOkQ wOkE wOkR noFaults
      false 0 wStoreQL wMsg 0 wQL rfl rfl (fun i => rfl) rfl rfl).2
     highPriority rfl rfl⟩

end IndexJs

namespace IndexJs

open Pipeline

/-- A not-a-lead run invokes neither the Qualify nor the Extract call-site. -/
theorem processMessage_notLead_invoked (docId : String) (message : RawMsg)
    (apiKey : String) (cO : Nat → HttpResult Classification)
    (qO : Nat → HttpResult Qualification) (eO : Nat → HttpResult Extraction)
    (rO : HttpResult String) (faults : Nat → Bool) (releaseFault : Bool)
    (now : Nat) (st0 : Store)
    (hp : message.processing = false) (h0 : faults 0 = false)
    (h5 : faults 5 = false)
    (hc : (classifyMessage message.body apiKey cO).1.isLead = false) :
    (processMessage docId message apiKey cO qO eO rO faults releaseFault now
      st0).stats.qualifyInvoked = false ∧
    (processMessage docId message apiKey cO qO eO rO faults releaseFault now
      st0).stats.extractInvoked = false := by
  unfold processMessage
  rw [if_neg (by simp [hp])]
  rw [if_neg (by simp [h0])]
  dsimp only
  rw [if_neg (by simp [hc])]
  rw [if_neg (by simp [h5])]
  exact ⟨rfl, rfl⟩

set_option maxHeartbeats 1000000 in
/-- The fault-free run on a lead message from a sender with NO QualifiedLead
document: the Qualify call-site is invoked, and — since the current name and
email are both unknown on this path — the Extract call-site is invoked
exactly when the Qualify call-site resolves `isQualified`. -/
theorem processMessage_fresh_extract (docId : String) (message : RawMsg)
    (apiKey : String) (cO : Nat → HttpResult Classification)
    (qO : Nat → HttpResult Qualification) (eO : Nat → HttpResult Extraction)
    (rO : HttpResult String) (faults : Nat → Bool) (releaseFault : Bool)
    (now : Nat) (st0 : Store) (b : Bool)
    (hp : message.processing = false)
    (hf : ∀ i, faults i = false)
    (hc : (classifyMessage message.body apiKey cO).1.isLead = true)
    (hq : findQL st0.qleads (jsOrStr message.userId unknownUser) = none)
    (hqf : ∀ tm intent,
      (qualifyLead message.body tm intent apiKey qO).1.isQualified = b) :
    (processMessage docId message apiKey cO qO eO rO faults releaseFault now
      st0).stats.qualifyInvoked = true ∧
    (processMessage docId message apiKey cO qO eO rO faults releaseFault now
      st0).stats.extractInvoked = b := by
  unfold processMessage
  rw [if_neg (by simp [hp])]
  rw [if_neg (by simp [hf 0])]
  dsimp only
  rw [if_pos hc]
  rw [if_neg (by simp [hf 1])]
  rw [if_neg (by simp [hf 2])]
  rw [rawUpdate_qleads, hq]
  dsimp only
  constructor
  · exact (finishLead_stats_inv _ _ _ _ _ _ _ _ _ _ _ _ _ _ _ _ _ _).1
  · rw [(finishLead_stats_inv _ _ _ _ _ _ _ _ _ _ _ _ _ _ _ _ _ _).2]
    dsimp only
    simp only [hqf]
    cases b <;> simp [truthyS]

end IndexJs

namespace IndexJs

open Pipeline

/-- C6: the Extract call-site is invoked exactly when the sender is qualified
AND a name or email is still unknown.  (a) Sender with an existing
QualifiedLead (hence qualified): Extract is invoked precisely when the stored
name or email is missing — in particular never once both are known.  (b) Not
a lead: Extract (and Qualify) are never invoked.  (c) Fresh lead sender (no
QualifiedLead document, so name and email are unknown): Qualify is invoked
and Extract is invoked exactly when the Qualify call-site resolves the sender
qualified — in particular never for an unqualified sender. -/
theorem c6_extract_invocation :
    (∀ (docId : String) (message : RawMsg) (apiKey : String)
        (cO : Nat → HttpResult Classification)
        (qO : Nat → HttpResult Qualification) (eO : Nat → HttpResult Extraction)
        (rO : HttpResult String) (faults : Nat → Bool) (releaseFault : Bool)
        (now : Nat) (st0 : Store) (m0 : RawMsg) (qi : Nat) (q : QLDoc),
      findRaw st0 docId = some m0 →
      message.processing = false →
      (∀ i, faults i = false) →
      (classifyMessage message.body apiKey cO).1.isLead = true →
      findQL st0.qleads (jsOrStr message.userId unknownUser) = some (qi, q) →
      (processMessage docId message apiKey cO qO eO rO faults releaseFault now
        st0).stats.extractInvoked = (!(truthyS q.name) || !(truthyS q.email))) ∧
    (∀ (docId : String) (message : RawMsg) (apiKey : String)
        (cO : Nat → HttpResult Classification)
        (qO : Nat → HttpResult Qualification) (eO : Nat → HttpResult Extraction)
        (rO : HttpResult String) (faults : Nat → Bool) (releaseFault : Bool)
        (now : Nat) (st0 : Store),
      message.processing = false → faults 0 = false → faults 5 = false →
      (classifyMessage message.body apiKey cO).1.isLead = false →
      (processMessage docId message apiKey cO qO eO rO faults releaseFault now
        st0).stats.qualifyInvoked = false ∧
      (processMessage docId message apiKey cO qO eO rO faults releaseFault now
        st0).stats.extractInvoked = false) ∧
    (∀ (docId : String) (message : RawMsg) (apiKey : String)
        (cO : Nat → HttpResult Classification)
        (qO : Nat → HttpResult Qualification) (eO : Nat → HttpResult Extraction)
        (rO : HttpResult String) (faults : Nat → Bool) (releaseFault : Bool)
        (now : Nat) (st0 : Store) (b : Bool),
      message.processing = false →
      (∀ i, faults i = false) →
      (classifyMessage message.body apiKey cO).1.isLead = true →
      findQL st0.qleads (jsOrStr message.userId unknownUser) = none →
      (∀ tm intent,
        (qualifyLead message.body tm intent apiKey qO).1.isQualified = b) →
      (processMessage docId message apiKey cO qO eO rO faults releaseFault now
        st0).stats.qualifyInvoked = true ∧
      (processMessage docId message apiKey cO qO eO rO faults releaseFault now
        st0).stats.extractInvoked = b) := by
  refine ⟨?_, ?_, ?_⟩
  · intro docId message apiKey cO qO eO rO faults releaseFault now st0 m0 qi q
      hm hp hf hc hq
    exact (processMessage_qualified_existing docId message apiKey cO qO eO rO
      faults releaseFault now st0 m0 qi q hm hp hf hc hq).2.2.1
  · intro docId message apiKey cO qO eO rO faults releaseFault now st0
      hp h0 h5 hc
    exact processMessage_notLead_invoked docId message apiKey cO qO eO rO
      faults releaseFault now st0 hp h0 h5 hc
  · intro docId message apiKey cO qO eO rO faults releaseFault now st0 b
      hp hf hc hq hqf
    exact processMessage_fresh_extract docId message apiKey cO qO eO rO
      faults releaseFault now st0 b hp hf hc hq hqf

/-- Witness for `c6_extract_invocation`: (a) `wQL` knows the name but not the
email, so Extract fires; (b) failing classification is not a lead, so it does
not; (c) a fresh sender whose qualification succeeds gets Extract invoked. -/
theorem c6_extract_invocation_witness :
    ((processMessage wId wMsg wKey wLeadC wOkQ wOkE wOkR noFaults false 0
        wStoreQL).stats.extractInvoked =
      (!(truthyS wQL.name) || !(truthyS wQL.email))) ∧
    ((processMessage wId wMsg wKey wFailC wFailQ wFailE HttpResult.fail noFaults
        false 0 wStore).stats.qualifyInvoked = false ∧
      (processMessage wId wMsg wKey wFailC wFailQ wFailE HttpResult.fail noFaults
        false 0 wStore).stats.extractInvoked = false) ∧
    ((processMessage wId wMsg wKey wLeadC wOkQ wOkE wOkR noFaults false 0
        wStore).stats.qualifyInvoked = true ∧
      (processMessage wId wMsg wKey wLeadC wOkQ wOkE wOkR noFaults false 0
        wStore).stats.extractInvoked = true) :=
  ⟨c6_extract_invocation.1 wId wMsg wKey wLeadC wOkQ wOkE wOkR noFaults false 0
      wStoreQL wMsg 0 wQL rfl rfl (fun i => rfl) rfl rfl,
   c6_extract_invocation.2.1 wId wMsg wKey wFailC wFailQ wFailE HttpResult.fail
      noFaults false 0 wStore rfl rfl rfl rfl,
   c6_extract_invocation.2.2 wId wMsg wKey wLeadC wOkQ wOkE wOkR noFaults false 0
      wStore true rfl (fun i => rfl) rfl rfl (fun tm intent => rfl)⟩

end IndexJs

namespace IndexJs

open Pipeline

/-- Shape of the `qualified_leads` collection after a persistence phase whose
qualified-lead query found nothing: untouched, one appended document carrying
the sender key, or (never on this path, but harmless to allow) a four-field
merge. -/
theorem finishLead_qleads_shape_none (docId userId phoneNumber : String)
    (message : RawMsg) (intent : String) (existingLead : Option (Nat × LeadDoc))
    (totalMessages : Nat) (isQualified : Bool) (leadPriority autoReply : String)
    (curName curEmail : Option String) (faults : Nat → Bool) (releaseFault : Bool)
    (now : Nat) (st : Store) (ps : PStats) (P : Prop) (hP : P) :
    (finishLead docId userId phoneNumber message intent existingLead
      none totalMessages isQualified leadPriority autoReply curName curEmail
      faults releaseFault now st ps).store.qleads = st.qleads ∨
    (P ∧ ∃ d, d.userId = userId ∧
      (finishLead docId userId phoneNumber message intent existingLead
        none totalMessages isQualified leadPriority autoReply curName curEmail
        faults releaseFault now st ps).store.qleads = st.qleads ++ [d]) ∨
    (∃ qi cn ce tm,
      (finishLead docId userId phoneNumber message intent existingLead
        none totalMessages isQualified leadPriority autoReply curName curEmail
        faults releaseFault now st ps).store.qleads =
      listUpdateAt st.qleads qi (fun ql =>
        { ql with
          name := cn,
          email := ce,
          messageCount := tm,
          lastActive := some now })) := by
  rcases finishLead_qleads docId userId phoneNumber message intent existingLead
      none totalMessages isQualified leadPriority autoReply curName curEmail
      faults releaseFault now st ps with ⟨h, _⟩ | ⟨_, h⟩
  · exact Or.inl h
  · exact Or.inr (Or.inl ⟨hP,
      ⟨⟨userId, phoneNumber, docId, intent, some leadPriority, totalMessages,
        autoReply, curName, curEmail, now, none⟩, rfl, h⟩⟩)

/-- Shape of the `qualified_leads` collection after a persistence phase whose
qualified-lead query found a document: untouched or a four-field merge. -/
theorem finishLead_qleads_shape_some (docId userId phoneNumber : String)
    (message : RawMsg) (intent : String) (existingLead : Option (Nat × LeadDoc))
    (qi : Nat) (totalMessages : Nat) (isQualified : Bool)
    (leadPriority autoReply : String)
    (curName curEmail : Option String) (faults : Nat → Bool) (releaseFault : Bool)
    (now : Nat) (st : Store) (ps : PStats) (P : Prop) :
    (finishLead docId userId phoneNumber message intent existingLead
      (some qi) totalMessages isQualified leadPriority autoReply curName curEmail
      faults releaseFault now st ps).store.qleads = st.qleads ∨
    (P ∧ ∃ d, d.userId = userId ∧
      (finishLead docId userId phoneNumber message intent existingLead
        (some qi) totalMessages isQualified leadPriority autoReply curName curEmail
        faults releaseFault now st ps).store.qleads = st.qleads ++ [d]) ∨
    (∃ qi2 cn ce tm,
      (finishLead docId userId phoneNumber message intent existingLead
        (some qi) totalMessages isQualified leadPriority autoReply curName curEmail
        faults releaseFault now st ps).store.qleads =
      listUpdateAt st.qleads qi2 (fun ql =>
        { ql with
          name := cn,
          email := ce,
          messageCount := tm,
          lastActive := some now })) := by
  rcases finishLead_qleads docId userId phoneNumber message intent existingLead
      (some qi) totalMessages isQualified leadPriority autoReply curName curEmail
      faults releaseFault now st ps with ⟨h, _⟩ | ⟨_, h⟩
  · exact Or.inl h
  · exact Or.inr (Or.inr ⟨qi, curName, curEmail, totalMessages, h⟩)

/-- Shape of the `leads` collection after a persistence phase entered with no
existing lead: untouched, or one appended document carrying the sender key. -/
theorem finishLead_leads_shape_none (docId userId phoneNumber : String)
    (message : RawMsg) (intent : String)
    (qualifiedLeadDocRef : Option Nat)
    (totalMessages : Nat) (isQualified : Bool) (leadPriority autoReply : String)
    (curName curEmail : Option String) (faults : Nat → Bool) (releaseFault : Bool)
    (now : Nat) (st : Store) (ps : PStats) (P : Prop) (hP : P) :
    (finishLead docId userId phoneNumber message intent none
      qualifiedLeadDocRef totalMessages isQualified leadPriority autoReply
      curName curEmail faults releaseFault now st ps).store.leads = st.leads ∨
    (P ∧ ∃ d, d.userId = userId ∧
      (finishLead docId userId phoneNumber message intent none
        qualifiedLeadDocRef totalMessages isQualified leadPriority autoReply
        curName curEmail faults releaseFault now st ps).store.leads =
          st.leads ++ [d]) ∨
    (∃ li tm2 i2,
      (finishLead docId userId phoneNumber message intent none
        qualifiedLeadDocRef totalMessages isQualified leadPriority autoReply
        curName curEmail faults releaseFault now st ps).store.leads =
      listUpdateAt st.leads li (fun l =>
        { l with
          intent := i2,
          messageCount := tm2,
          lastActive := some now })) := by
  rcases finishLead_leads docId userId phoneNumber message intent none
      qualifiedLeadDocRef totalMessages isQualified leadPriority autoReply
      curName curEmail faults releaseFault now st ps with
    h | ⟨_, h⟩ | ⟨li, l0, hco, h⟩
  · exact Or.inl h
  · exact Or.inr (Or.inl ⟨hP,
      ⟨⟨userId, phoneNumber, intent, message.body, totalMessages, now, none⟩,
        rfl, h⟩⟩)
  · exact absurd hco (by simp)

/-- Shape of the `leads` collection after a persistence phase entered with an
existing lead: untouched or one three-field update. -/
theorem finishLead_leads_shape_some (docId userId phoneNumber : String)
    (message : RawMsg) (intent : String) (li0 : Nat) (l0 : LeadDoc)
    (qualifiedLeadDocRef : Option Nat)
    (totalMessages : Nat) (isQualified : Bool) (leadPriority autoReply : String)
    (curName curEmail : Option String) (faults : Nat → Bool) (releaseFault : Bool)
    (now : Nat) (st : Store) (ps : PStats) (P : Prop) :
    (finishLead docId userId phoneNumber message intent (some (li0, l0))
      qualifiedLeadDocRef totalMessages isQualified leadPriority autoReply
      curName curEmail faults releaseFault now st ps).store.leads = st.leads ∨
    (P ∧ ∃ d, d.userId = userId ∧
      (finishLead docId userId phoneNumber message intent (some (li0, l0))
        qualifiedLeadDocRef totalMessages isQualified leadPriority autoReply
        curName curEmail faults releaseFault now st ps).store.leads =
          st.leads ++ [d]) ∨
    (∃ li tm2 i2,
      (finishLead docId userId phoneNumber message intent (some (li0, l0))
        qualifiedLeadDocRef totalMessages isQualified leadPriority autoReply
        curName curEmail faults releaseFault now st ps).store.leads =
      listUpdateAt st.leads li (fun l =>
        { l with
          intent := i2,
          messageCount := tm2,
          lastActive := some now })) := by
  rcases finishLead_leads docId userId phoneNumber message intent (some (li0, l0))
      qualifiedLeadDocRef totalMessages isQualified leadPriority autoReply
      curName curEmail faults releaseFault now st ps with
    h | ⟨hco, _⟩ | ⟨li, l2, _, h⟩
  · exact Or.inl h
  · exact absurd hco (by simp)
  · exact Or.inr (Or.inr ⟨li, totalMessages, intent, h⟩)

end IndexJs

namespace IndexJs

open Pipeline

set_option maxHeartbeats 1000000 in
/-- Under ANY faults, release behaviour and generation behaviour, one
processing attempt changes the `qualified_leads` collection in at most one of
three ways: not at all; one appended document carrying the sender key, and
then only when the sender had no qualified-lead document; or one four-field
merge of an existing document. -/
theorem processMessage_qleads_shape (docId : String) (message : RawMsg)
    (apiKey : String) (cO : Nat → HttpResult Classification)
    (qO : Nat → HttpResult Qualification) (eO : Nat → HttpResult Extraction)
    (rO : HttpResult String) (faults : Nat → Bool) (releaseFault : Bool)
    (now : Nat) (st0 : Store) :
    (processMessage docId message apiKey cO qO eO rO faults releaseFault now
      st0).store.qleads = st0.qleads ∨
    (findQL st0.qleads (jsOrStr message.userId unknownUser) = none ∧
      ∃ d, d.userId = jsOrStr message.userId unknownUser ∧
        (processMessage docId message apiKey cO qO eO rO faults releaseFault now
          st0).store.qleads = st0.qleads ++ [d]) ∨
    (∃ qi cn ce tm,
      (processMessage docId message apiKey cO qO eO rO faults releaseFault now
        st0).store.qleads = listUpdateAt st0.qleads qi (fun ql =>
        { ql with
          name := cn,
          email := ce,
          messageCount := tm,
          lastActive := some now })) := by
  unfold processMessage
  dsimp only
  by_cases hp : message.processing = true
  · rw [if_pos hp]
    exact Or.inl rfl
  · rw [if_neg hp]
    by_cases h0 : faults 0 = true
    · rw [if_pos h0]
      exact Or.inl rfl
    · rw [if_neg h0]
      by_cases hc : (classifyMessage message.body apiKey cO).1.isLead = true
      · rw [if_pos hc]
        by_cases h1 : faults 1 = true
        · rw [if_pos h1]
          exact Or.inl (catchRelease_qleads _ _ _ _)
        · rw [if_neg h1]
          by_cases h2 : faults 2 = true
          · rw [if_pos h2]
            exact Or.inl (catchRelease_qleads _ _ _ _)
          · rw [if_neg h2]
            cases hqq : findQL (rawUpdate st0 docId
                (fun d => { d with processing := true })).qleads
                (jsOrStr message.userId unknownUser) with
            | none =>
              dsimp only
              exact finishLead_qleads_shape_none _ _ _ _ _ _ _ _ _ _ _ _ _ _ _ _ _ _
                hqq
            | some p =>
              obtain ⟨qi, q⟩ := p
              dsimp only
              exact finishLead_qleads_shape_some _ _ _ _ _ _ _ _ _ _ _ _ _ _ _ _ _ _
                _
      · rw [if_neg hc]
        by_cases h5 : faults 5 = true
        · rw [if_pos h5]
          exact Or.inl (catchRelease_qleads _ _ _ _)
        · rw [if_neg h5]
          exact Or.inl rfl

set_option maxHeartbeats 1000000 in
/-- Under ANY faults, release behaviour and generation behaviour, one
processing attempt changes the `leads` collection in at most one of three
ways: not at all; one appended document carrying the sender key, and then
only when the sender had no lead document; or one three-field update of an
existing document. -/
theorem processMessage_leads_shape (docId : String) (message : RawMsg)
    (apiKey : String) (cO : Nat → HttpResult Classification)
    (qO : Nat → HttpResult Qualification) (eO : Nat → HttpResult Extraction)
    (rO : HttpResult String) (faults : Nat → Bool) (releaseFault : Bool)
    (now : Nat) (st0 : Store) :
    (processMessage docId message apiKey cO qO eO rO faults releaseFault now
      st0).store.leads = st0.leads ∨
    (findLatestLead st0.leads (jsOrStr message.userId unknownUser) = none ∧
      ∃ d, d.userId = jsOrStr message.userId unknownUser ∧
        (processMessage docId message apiKey cO qO eO rO faults releaseFault now
          st0).store.leads = st0.leads ++ [d]) ∨
    (∃ li tm2 i2,
      (processMessage docId message apiKey cO qO eO rO faults releaseFault now
        st0).store.leads = listUpdateAt st0.leads li (fun l =>
        { l with
          intent := i2,
          messageCount := tm2,
          lastActive := some now })) := by
  unfold processMessage
  dsimp only
  by_cases hp : message.processing = true
  · rw [if_pos hp]
    exact Or.inl rfl
  · rw [if_neg hp]
    by_cases h0 : faults 0 = true
    · rw [if_pos h0]
      exact Or.inl rfl
    · rw [if_neg h0]
      by_cases hc : (classifyMessage message.body apiKey cO).1.isLead = true
      · rw [if_pos hc]
        by_cases h1 : faults 1 = true
        · rw [if_pos h1]
          exact Or.inl (catchRelease_leads _ _ _ _)
        · rw [if_neg h1]
          by_cases h2 : faults 2 = true
          · rw [if_pos h2]
            exact Or.inl (catchRelease_leads _ _ _ _)
          · rw [if_neg h2]
            cases hel : findLatestLead (rawUpdate st0 docId
                (fun d => { d with processing := true })).leads
                (jsOrStr message.userId unknownUser) with
            | none =>
              dsimp only
              exact finishLead_leads_shape_none _ _ _ _ _ _ _ _ _ _ _ _ _ _ _ _ _ _
                hel
            | some p =>
              obtain ⟨li0, l0⟩ := p
              dsimp only
              exact finishLead_leads_shape_some _ _ _ _ _ _ _ _ _ _ _ _ _ _ _ _ _ _
                _ _
      · rw [if_neg hc]
        by_cases h5 : faults 5 = true
        · rw [if_pos h5]
          exact Or.inl (catchRelease_leads _ _ _ _)
        · rw [if_neg h5]
          exact Or.inl rfl

end IndexJs

namespace IndexJs

open Pipeline

/-- One attempt preserves the invariant that the sender has at most one
qualified-lead document, under any faults and generation behaviour. -/
theorem processMessage_qlCount (docId : String) (message : RawMsg)
    (apiKey : String) (cO : Nat → HttpResult Classification)
    (qO : Nat → HttpResult Qualification) (eO : Nat → HttpResult Extraction)
    (rO : HttpResult String) (faults : Nat → Bool) (releaseFault : Bool)
    (now : Nat) (st0 : Store)
    (h1 : qlCount st0 (jsOrStr message.userId unknownUser) ≤ 1) :
    qlCount (processMessage docId message apiKey cO qO eO rO faults releaseFault
      now st0).store (jsOrStr message.userId unknownUser) ≤ 1 := by
  rcases processMessage_qleads_shape docId message apiKey cO qO eO rO faults
      releaseFault now st0 with h | ⟨hn, d, hd, h⟩ | ⟨qi, cn, ce, tm, h⟩
  · unfold qlCount at h1 ⊢
    rw [h]
    exact h1
  · unfold qlCount at h1 ⊢
    rw [h, List.filter_append, List.length_append]
    rw [findQL_none_filter _ _ hn]
    simp [hd]
  · unfold qlCount at h1 ⊢
    rw [h, filter_listUpdateAt (fun (q : QLDoc) => q.userId == jsOrStr
        message.userId unknownUser)
      (fun (ql : QLDoc) => { ql with
        name := cn,
        email := ce,
        messageCount := tm,
        lastActive := some now }) (fun x => rfl)]
    exact h1

/-- One attempt preserves the invariant that the sender has at most one
general-lead document, under any faults and generation behaviour. -/
theorem processMessage_leadCount (docId : String) (message : RawMsg)
    (apiKey : String) (cO : Nat → HttpResult Classification)
    (qO : Nat → HttpResult Qualification) (eO : Nat → HttpResult Extraction)
    (rO : HttpResult String) (faults : Nat → Bool) (releaseFault : Bool)
    (now : Nat) (st0 : Store)
    (h1 : leadCount st0 (jsOrStr message.userId unknownUser) ≤ 1) :
    leadCount (processMessage docId message apiKey cO qO eO rO faults releaseFault
      now st0).store (jsOrStr message.userId unknownUser) ≤ 1 := by
  rcases processMessage_leads_shape docId message apiKey cO qO eO rO faults
      releaseFault now st0 with h | ⟨hn, d, hd, h⟩ | ⟨li, tm2, i2, h⟩
  · unfold leadCount at h1 ⊢
    rw [h]
    exact h1
  · unfold leadCount at h1 ⊢
    rw [h, List.filter_append, List.length_append]
    rw [findLatestLead_none_filter _ _ hn]
    simp [hd]
  · unfold leadCount at h1 ⊢
    rw [h, filter_listUpdateAt (fun (l : LeadDoc) => l.userId == jsOrStr
        message.userId unknownUser)
      (fun (l : LeadDoc) => { l with
        intent := i2,
        messageCount := tm2,
        lastActive := some now }) (fun x => rfl)]
    exact h1

end IndexJs

namespace IndexJs

open Pipeline

/-- C5: monotonic fill and idempotent merge.  (a) In a fault-free run on a
sender with an existing QualifiedLead, the merge never overwrites a
previously-known (truthy) `name` or `email`: the document found for the
sender afterwards still carries them, even when extraction returned null.
(b) Idempotence: starting from a store where the sender has at most one Lead
and at most one QualifiedLead document (in particular a fresh store), two
successive processing attempts of the same raw message — each under ARBITRARY
store faults, release behaviour and generation behaviour, e.g. a first
attempt that crashed between Claim and Persist — still leave at most one Lead
and at most one QualifiedLead document for that senderKey. -/
theorem c5_monotonic_fill_idempotent :
    (∀ (docId : String) (message : RawMsg) (apiKey : String)
        (cO : Nat → HttpResult Classification)
        (qO : Nat → HttpResult Qualification) (eO : Nat → HttpResult Extraction)
        (rO : HttpResult String) (faults : Nat → Bool) (releaseFault : Bool)
        (now : Nat) (st0 : Store) (m0 : RawMsg) (qi : Nat) (q : QLDoc),
      findRaw st0 docId = some m0 →
      message.processing = false →
      (∀ i, faults i = false) →
      (classifyMessage message.body apiKey cO).1.isLead = true →
      findQL st0.qleads (jsOrStr message.userId unknownUser) = some (qi, q) →
      ∃ q', findQL (processMessage docId message apiKey cO qO eO rO faults
          releaseFault now st0).store.qleads (jsOrStr message.userId unknownUser)
            = some (qi, q') ∧
        (truthyS q.name = true → q'.name = q.name) ∧
        (truthyS q.email = true → q'.email = q.email)) ∧
    (∀ (docId : String) (message : RawMsg) (apiKey : String)
        (cO1 : Nat → HttpResult Classification)
        (qO1 : Nat → HttpResult Qualification) (eO1 : Nat → HttpResult Extraction)
        (rO1 : HttpResult String) (f1 : Nat → Bool) (rf1 : Bool) (now1 : Nat)
        (cO2 : Nat → HttpResult Classification)
        (qO2 : Nat → HttpResult Qualification) (eO2 : Nat → HttpResult Extraction)
        (rO2 : HttpResult String) (f2 : Nat → Bool) (rf2 : Bool) (now2 : Nat)
        (st0 : Store),
      qlCount st0 (jsOrStr message.userId unknownUser) ≤ 1 →
      leadCount st0 (jsOrStr message.userId unknownUser) ≤ 1 →
      qlCount (processMessage docId message apiKey cO2 qO2 eO2 rO2 f2 rf2 now2
        (processMessage docId message apiKey cO1 qO1 eO1 rO1 f1 rf1 now1
          st0).store).store (jsOrStr message.userId unknownUser) ≤ 1 ∧
      leadCount (processMessage docId message apiKey cO2 qO2 eO2 rO2 f2 rf2 now2
        (processMessage docId message apiKey cO1 qO1 eO1 rO1 f1 rf1 now1
          st0).store).store (jsOrStr message.userId unknownUser) ≤ 1) := by
  constructor
  · intro docId message apiKey cO qO eO rO faults releaseFault now st0 m0 qi q
      hm hp hf hc hq
    obtain ⟨h1, h2, h3, ⟨cn, ce, tm, hql, hcn, hce⟩, h5⟩ :=
      processMessage_qualified_existing docId message apiKey cO qO eO rO faults
        releaseFault now st0 m0 qi q hm hp hf hc hq
    refine ⟨{ q with
        name := cn,
        email := ce,
        messageCount := tm,
        lastActive := some now }, ?_, ?_, ?_⟩
    · rw [hql]
      rw [findQL_listUpdateAt (jsOrStr message.userId unknownUser)
        (fun ql => { ql with
          name := cn,
          email := ce,
          messageCount := tm,
          lastActive := some now })
        (fun x => rfl) st0.qleads qi]
      rw [hq]
      simp
    · intro ht
      exact hcn ht
    · intro ht
      exact hce ht
  · intro docId message apiKey cO1 qO1 eO1 rO1 f1 rf1 now1
      cO2 qO2 eO2 rO2 f2 rf2 now2 st0 hq1 hl1
    constructor
    · exact processMessage_qlCount docId message apiKey cO2 qO2 eO2 rO2 f2 rf2
        now2 _ (processMessage_qlCount docId message apiKey cO1 qO1 eO1 rO1 f1
          rf1 now1 st0 hq1)
    · exact processMessage_leadCount docId message apiKey cO2 qO2 eO2 rO2 f2 rf2
        now2 _ (processMessage_leadCount docId message apiKey cO1 qO1 eO1 rO1 f1
          rf1 now1 st0 hl1)

/-- Witness for `c5_monotonic_fill_idempotent`: the known name Bob of `wQL`
survives a run whose extraction returns no name; and two runs on a fresh
store — the first crashing at the final raw update after its lead writes —
leave at most one Lead and one QualifiedLead for the sender. -/
theorem c5_monotonic_fill_idempotent_witness :
    (∃ q', findQL (processMessage wId wMsg wKey wLeadC wOkQ wOkE wOkR noFaults
        false 0 wStoreQL).store.qleads (jsOrStr wMsg.userId unknownUser)
          = some (0, q') ∧
      (truthyS wQL.name = true → q'.name = wQL.name) ∧
      (truthyS wQL.email = true → q'.email = wQL.email)) ∧
    (qlCount (processMessage wId wMsg wKey wLeadC wOkQ wOkE wOkR noFaults false 1
        (processMessage wId wMsg wKey wLeadC wOkQ wOkE wOkR (fun i => i == 5)
          false 0 wStore).store).store (jsOrStr wMsg.userId unknownUser) ≤ 1 ∧
      leadCount (processMessage wId wMsg wKey wLeadC wOkQ wOkE wOkR noFaults
        false 1 (processMessage wId wMsg wKey wLeadC wOkQ wOkE wOkR
          (fun i => i == 5) false 0 wStore).store).store
        (jsOrStr wMsg.userId unknownUser) ≤ 1) :=
  ⟨c5_monotonic_fill_idempotent.1 wId wMsg wKey wLeadC wOkQ wOkE wOkR noFaults
      false 0 wStoreQL wMsg 0 wQL rfl rfl (fun i => rfl) rfl rfl,
   c5_monotonic_fill_idempotent.2 wId wMsg wKey wLeadC wOkQ wOkE wOkR
      (fun i => i == 5) false 0 wLeadC wOkQ wOkE wOkR noFaults false 1 wStore
      (by decide) (by decide)⟩

end IndexJs
